import Mathlib

/-!
Verification of the AgentMarket payment-gated execution saga.

This file gives a shallow embedding of the backend code that implements the
saga (src/backend/src/api/chat.ts), the model-invocation retry loop
(src/backend/src/agent-engine/executor.ts and executeAgentWithPrompt in
chat.ts), the input validation middleware
(src/backend/src/middleware/rateLimit.ts companion validation module), and
the USD to atomic-amount conversion (usdToUsdc, reproduced in
src/backend/README.md).  External collaborators whose implementation is not
part of the sources (the on-chain ledger wrappers in lib/contract.ts, the
local JSON database in lib/database.ts, and the x402 facilitator) are
modelled as oracles supplied through an environment record, following the
interfaces the spec assigns to them.

Strings are modelled as Lean `String`s, manipulated through their
underlying `List Char`, which matches JavaScript string semantics on the
ASCII inputs these functions are concerned with.
-/

namespace AgentMarket

/-! ## Character and string helpers (JS semantics) -/

/-- JS `\s` character class restricted to ASCII: space, tab, newline,
vertical tab, form feed, carriage return. -/
def jsWhitespace (c : Char) : Bool :=
  c = ' ' || c = '\t' || c = '\n' || c = '\x0b' || c = '\x0c' || c = '\x0d'

/-- JS `\w` character class: ASCII letters, digits and underscore. -/
def jsWordChar (c : Char) : Bool :=
  c.isAlpha || c.isDigit || c = '_'

/-- Lowercase a character list, as JS `toLowerCase` does on ASCII. -/
def lowerChars (l : List Char) : List Char :=
  l.map Char.toLower

/-- Does `pat` occur as a prefix of `l`? -/
def prefixMatch : List Char → List Char → Bool
  | [], _ => true
  | _ :: _, [] => false
  | p :: ps, c :: cs => p = c && prefixMatch ps cs

/-- Does `pat` occur as a contiguous sublist of `l`?  This is JS
`String.prototype.includes` on the character level. -/
def containsSub (pat : List Char) : List Char → Bool
  | [] => prefixMatch pat []
  | c :: cs => prefixMatch pat (c :: cs) || containsSub pat cs

/-- Case-insensitive substring test, as a JS regex literal alternation with
the `i` flag behaves. -/
def strContainsCI (s pat : String) : Bool :=
  containsSub (lowerChars pat.data) (lowerChars s.data)

/-- Case-sensitive substring test on lowered data; used after an explicit
`toLowerCase` in the source. -/
def strContains (s pat : String) : Bool :=
  containsSub pat.data s.data

/-- JS `String.prototype.startsWith` on the character level. -/
def strStartsWith (s pat : String) : Bool :=
  prefixMatch pat.data s.data

/-- Strip leading and trailing JS whitespace (JS `trim`, ASCII part). -/
def trimChars (l : List Char) : List Char :=
  ((l.dropWhile jsWhitespace).reverse.dropWhile jsWhitespace).reverse

/-! ## Output validation (executor.ts lines 284-295 and chat.ts lines 517-525)

Both call sites validate the model output with the same expression:

    const isValidLength = output.length > 10 && output.length < 100000;
    const looksLikeError = output.length < 100 && (
      output.toLowerCase().startsWith("error") ||
      output.toLowerCase().startsWith("failed") ||
      output.toLowerCase().includes("exception:") ||
      output.toLowerCase().includes("api key"));
    const success = isValidLength && !looksLikeError;
-/

/-- `isValidLength` from the output validation. -/
def isValidLength (out : String) : Bool :=
  decide (10 < out.length) && decide (out.length < 100000)

/-- `looksLikeError` from the output validation. -/
def looksLikeError (out : String) : Bool :=
  decide (out.length < 100) &&
    (strStartsWith (String.mk (lowerChars out.data)) "error" ||
     strStartsWith (String.mk (lowerChars out.data)) "failed" ||
     strContains (String.mk (lowerChars out.data)) "exception:" ||
     strContains (String.mk (lowerChars out.data)) "api key")

/-- The `success` flag computed from a model output. -/
def outputSuccess (out : String) : Bool :=
  isValidLength out && !looksLikeError out

/-! ## USD to atomic amount (usdToUsdc, src/backend/README.md lines 596-615)

    const amount = Math.floor(usdAmount * 1_000_000).toString();

The USD amount is modelled as an exact rational; `Math.floor` is the floor
on the reals. -/

/-- `usdToUsdc` amount computation: floor of the price scaled by 10^6. -/
def usdToUsdc (usdAmount : ℚ) : ℤ :=
  ⌊usdAmount * 1000000⌋

/-- Truncation toward zero of a rational, the rounding mode named by the
spec for the USD to atomic conversion. -/
def ratTruncTowardZero (q : ℚ) : ℤ :=
  q.num.tdiv q.den

/-! ## Model invocation retry loop of the executor (executor.ts lines 241-282)

    const maxRetries = 3;
    const retryDelay = 2000;
    for (let attempt = 1; attempt <= maxRetries; attempt++) {
      try {
        if (attempt > 1) { await sleep(retryDelay * attempt); }
        output = ...; break;
      } catch (error) {
        lastError = error;
        const isRetryable = msg.includes("503") || msg.includes("429") ||
          msg.includes("500") || msg.includes("overloaded") ||
          msg.includes("quota") || msg.includes("rate limit");
        if (isRetryable && attempt < maxRetries) continue; else throw error;
      }
    }
    if (!output) { throw lastError || new Error("Failed to get response from Gemini"); }

The model backend is an oracle `call : Nat -> Except String String` giving
the outcome of each attempt (1-indexed); the thrown error is its message.
The unified-chat loop (executeAgentWithPrompt in chat.ts), which extends
this classification with code/status checks, provider failover and a
data-policy early return, is embedded separately below. -/

/-- Transient-error classification of executor.ts, by message substring
only. -/
def isRetryableMsg (msg : String) : Bool :=
  strContains msg "503" || strContains msg "429" || strContains msg "500" ||
    strContains msg "overloaded" || strContains msg "quota" ||
    strContains msg "rate limit"

/-- `maxRetries` constant from the source. -/
def maxRetries : Nat := 3

/-- `retryDelay` base backoff constant from the source (milliseconds). -/
def retryDelay : Nat := 2000

/-- Result of running the retry loop: the final outcome, the number of
model calls actually made, the backoff delays slept (in order), and the
`lastError` variable at exit. -/
structure RetryOutcome where
  result : Except String String
  calls : Nat
  delays : List Nat
  lastErr : Option String
deriving Repr

/-- The `for` loop body.  `attempt` is the current 1-indexed loop counter
and `rest` the attempt numbers still available, so `rest ≠ []` is exactly
the loop's `attempt < maxRetries` test; a retry sleeps
`retryDelay * next` before the next call. -/
def retryGo (call : Nat → Except String String) :
    Nat → List Nat → List Nat → Option String → RetryOutcome
  | attempt, rest, delays, lastErr =>
      match call attempt with
      | .ok out => ⟨.ok out, attempt, delays, lastErr⟩
      | .error e =>
          match rest with
          | [] => ⟨.error e, attempt, delays, some e⟩
          | next :: rest' =>
              if isRetryableMsg e then
                retryGo call next rest' (delays ++ [retryDelay * next]) (some e)
              else ⟨.error e, attempt, delays, some e⟩

/-- The complete executor.ts retry phase with `maxRetries = 3`, including
the trailing empty-output check
(`if (!output) throw lastError || new Error(...)`). -/
def executeWithRetry (call : Nat → Except String String) : RetryOutcome :=
  let r := retryGo call 1 [2, 3] [] none
  match r.result with
  | .ok out =>
      if out.isEmpty then
        { r with result := .error (r.lastErr.getD "Failed to get response from Gemini") }
      else r
  | .error _ => r

/-! ## The unified-chat retry loop (executeAgentWithPrompt, chat.ts lines 364-531)

This loop extends the executor's: it selects a provider up front (Gemini if
GEMINI_API_KEY is set, else OpenRouter, else an immediate non-success
return), switches from Gemini to OpenRouter on a quota error message at
attempt 1 when OPENROUTER_API_KEY is configured and the dynamic import
succeeds (then retries), returns a fixed non-success result immediately on
the OpenRouter data-policy error, and classifies retryability by message
substrings or by `errorCode === 503/429 || errorStatus === 503/429`
(lines 488-497).  After the loop, an unset/empty output throws
`lastError || new Error(...)` and a set output is validated exactly as in
`outputSuccess`. -/

/-- A thrown model-call error, as far as the unified-chat loop inspects
it: the message, `error?.code || error?.status` and `error?.statusCode`
(`none` models the non-numeric "unknown" fallback). -/
structure ModelError where
  message : String
  code : Option Nat
  statusCode : Option Nat
deriving DecidableEq, Repr

/-- Configuration and backend oracle of the unified-chat loop.  `call`
gives the outcome of the k-th attempt on the current provider
(`true` = OpenRouter). -/
structure ChatModelEnv where
  geminiKey : Bool
  openRouterKey : Bool
  importOpenAIOk : Bool
  call : Nat → Bool → Except ModelError String

/-- Retryability classification of the unified-chat loop (chat.ts lines
488-497): message substrings or code/status equal to 503 or 429. -/
def isRetryableErr (e : ModelError) : Bool :=
  strContains e.message "503" || strContains e.message "429" ||
    strContains e.message "500" || strContains e.message "overloaded" ||
    strContains e.message "quota" || strContains e.message "rate limit" ||
    decide (e.code = some 503) || decide (e.code = some 429) ||
    decide (e.statusCode = some 503) || decide (e.statusCode = some 429)

/-- Condition of the Gemini-to-OpenRouter failover (chat.ts line 457),
including the success of the dynamic import attempted inside the branch: a
failing import falls through to the ordinary retry classification. -/
def quotaSwitchCond (env : ChatModelEnv) (useOpenRouter : Bool)
    (e : ModelError) (attempt : Nat) : Bool :=
  !useOpenRouter && strContains e.message "quota" && env.openRouterKey &&
    decide (attempt = 1) && env.importOpenAIOk

/-- Condition of the OpenRouter data-policy early return (chat.ts line
479). -/
def dataPolicyCond (useOpenRouter : Bool) (e : ModelError) : Bool :=
  useOpenRouter && strContains e.message "data policy" &&
    strContains e.message "Free model publication"

/-- How the unified-chat `for` loop exits: `break` with an output, a
rethrown error, or the data-policy `return`. -/
inductive LoopExit
  | success (output : String) (lastErr : Option ModelError)
  | thrown (e : ModelError)
  | policyReturn
deriving Repr

/-- Loop exit together with the number of calls made and the backoff
delays slept. -/
structure LoopState where
  exit : LoopExit
  calls : Nat
  delays : List Nat
deriving Repr

/-- The unified-chat `for` loop.  As in `retryGo`, `rest` holds the
remaining attempt numbers, so `rest = []` is `attempt = maxRetries`;
`useOpenRouter` is the mutable provider flag. -/
def chatRetryGo (env : ChatModelEnv) :
    Nat → List Nat → Bool → List Nat → Option ModelError → LoopState
  | attempt, rest, useOpenRouter, delays, lastErr =>
      match env.call attempt useOpenRouter with
      | .ok out => ⟨.success out lastErr, attempt, delays⟩
      | .error e =>
          if quotaSwitchCond env useOpenRouter e attempt then
            -- switch to OpenRouter and `continue`
            match rest with
            | next :: rest' =>
                chatRetryGo env next rest' true
                  (delays ++ [retryDelay * next]) (some e)
            | [] => ⟨.thrown e, attempt, delays⟩
          else if dataPolicyCond useOpenRouter e then
            ⟨.policyReturn, attempt, delays⟩
          else if isRetryableErr e then
            match rest with
            | next :: rest' =>
                chatRetryGo env next rest' useOpenRouter
                  (delays ++ [retryDelay * next]) (some e)
            | [] => ⟨.thrown e, attempt, delays⟩
          else ⟨.thrown e, attempt, delays⟩

/-- The fixed output of the no-provider early return (chat.ts line 401). -/
def noProviderMessage : String :=
  "AI provider not configured. Please set GEMINI_API_KEY or OPENROUTER_API_KEY in backend/.env"

/-- The fixed output of the data-policy early return (chat.ts line 483). -/
def dataPolicyMessage : String :=
  "OpenRouter data policy not configured. Please enable \x27Free model publication\x27 in your OpenRouter privacy settings: https://openrouter.ai/settings/privacy"

/-- Result of `executeAgentWithPrompt`: a thrown error or the returned
`{ output, success }` pair, with the call count and backoff delays. -/
structure ChatRetryOutcome where
  result : Except ModelError (String × Bool)
  calls : Nat
  delays : List Nat
deriving Repr

/-- The loop followed by the post-loop processing: empty output throws
`lastError || new Error(...)`, the data-policy exit returns its fixed
non-success result, and a set output is validated by `outputSuccess`. -/
def runChatLoop (env : ChatModelEnv) (initOR : Bool) : ChatRetryOutcome :=
  match chatRetryGo env 1 [2, 3] initOR [] none with
  | ⟨.success out lastErr, calls, delays⟩ =>
      if out.isEmpty then
        ⟨.error (lastErr.getD ⟨"Failed to get response from Gemini", none, none⟩),
          calls, delays⟩
      else ⟨.ok (out, outputSuccess out), calls, delays⟩
  | ⟨.thrown e, calls, delays⟩ => ⟨.error e, calls, delays⟩
  | ⟨.policyReturn, calls, delays⟩ => ⟨.ok (dataPolicyMessage, false), calls, delays⟩

/-- `executeAgentWithPrompt` end to end: provider selection (chat.ts lines
370-404), then the retry loop and post-processing. -/
def executeChatWithRetry (env : ChatModelEnv) : ChatRetryOutcome :=
  if env.geminiKey then runChatLoop env false
  else if env.openRouterKey then runChatLoop env true
  else ⟨.ok (noProviderMessage, false), 0, []⟩

/-! ## Payment hash selection (chat.ts lines 101-109)

    let paymentHashBytes32: string;
    if (paymentHash && paymentHash.startsWith("0x")) {
      paymentHashBytes32 = paymentHash;
    } else if (paymentPayload?.hash) {
      paymentHashBytes32 = paymentPayload.hash;
    } else {
      paymentHashBytes32 = ethers.keccak256(ethers.toUtf8Bytes(paymentHeaderValue || ""));
    }

`keccak` abstracts the external pure digest `ethers.keccak256 . toUtf8Bytes`.
The body field `paymentHash` is `none` when absent or empty (JS falsy). -/

/-- A decoded payment payload, as far as the handler inspects it.  The
`hash` field is the client-side digest carried inside the token; `none`
models a falsy value. -/
structure PaymentPayload where
  hash : Option String
  payer : String
  nonce : String
  value : String
  validAfter : String
  validBefore : String
deriving DecidableEq, Repr

/-- `paymentHashBytes32` selection from chat.ts. -/
def computePaymentHash (keccak : String → String) (bodyHash : Option String)
    (payload : PaymentPayload) (headerValue : String) : String :=
  match bodyHash with
  | some h =>
      if strStartsWith h "0x" then h
      else
        match payload.hash with
        | some ph => ph
        | none => keccak headerValue
  | none =>
      match payload.hash with
      | some ph => ph
      | none => keccak headerValue

/-- Modelled from the spec: the client-side hash derivation
(`buildPaymentPayload` in the frontend x402 hook, not under src/) derives
the payload hash deterministically from the authorization
payer+nonce+value+timestamps via a cryptographic digest. -/
def clientPayloadHash (digest : String → String) (p : PaymentPayload) : String :=
  digest (p.payer ++ p.nonce ++ p.value ++ p.validAfter ++ p.validBefore)

/-! ## Input validation and sanitization middleware
(validation module shipped with src/backend/src/middleware/rateLimit.ts)

    sanitizeString: remove [\x00-\x08\x0B-\x0C\x0E-\x1F\x7F], limit length,
    trim whitespace.
    validateAgentInput: reject falsy input, whitespace-only input, input
    longer than 10000 characters, and input matching one of
    /<script[^>]*>/i, /javascript:/i, /on\w+\s*=/i.
-/

/-- Characters stripped by `sanitizeString`'s character class
`[\x00-\x08\x0B-\x0C\x0E-\x1F\x7F]`. -/
def isStrippedControl (c : Char) : Bool :=
  c.toNat ≤ 0x08 || c.toNat = 0x0B || c.toNat = 0x0C ||
    (0x0E ≤ c.toNat && c.toNat ≤ 0x1F) || c.toNat = 0x7F

/-- `sanitizeString(input, maxLength)`: strip the control-character class,
truncate, then trim. -/
def sanitizeString (input : String) (maxLength : Nat) : String :=
  String.mk (trimChars (((input.data.filter (fun c => !isStrippedControl c)).take maxLength)))

/-- Match of `/<script[^>]*>/i` anchored at the start of the (lowered)
list: the literal `<script` followed by any characters other than `>` and
then a `>`.  Since `[^>]*` cannot cross a `>`, greedy matching is exact. -/
def scriptTagAt (l : List Char) : Bool :=
  prefixMatch "<script".data l &&
    (match (l.drop 7).dropWhile (fun c => c ≠ '>') with
     | [] => false
     | _ :: _ => true)

/-- Search of `/<script[^>]*>/i` over the whole (lowered) list. -/
def hasScriptTagL : List Char → Bool
  | [] => false
  | c :: cs => scriptTagAt (c :: cs) || hasScriptTagL cs

/-- Match of `/on\w+\s*=/i` anchored at the start of the (lowered) list:
`on`, then one or more word characters, then optional whitespace, then `=`.
`=` is neither a word character nor whitespace, so greedy matching is
exact. -/
def eventHandlerAt (l : List Char) : Bool :=
  prefixMatch "on".data l &&
    (let rest := l.drop 2
     decide (rest.takeWhile jsWordChar ≠ []) &&
       (match (rest.dropWhile jsWordChar).dropWhile jsWhitespace with
        | '=' :: _ => true
        | _ => false))

/-- Search of `/on\w+\s*=/i` over the whole (lowered) list. -/
def hasEventHandlerL : List Char → Bool
  | [] => false
  | c :: cs => eventHandlerAt (c :: cs) || hasEventHandlerL cs

/-- `/<script[^>]*>/i.test(input)`. -/
def hasScriptTag (s : String) : Bool :=
  hasScriptTagL (lowerChars s.data)

/-- `/javascript:/i.test(input)`. -/
def hasJavascriptUri (s : String) : Bool :=
  containsSub "javascript:".data (lowerChars s.data)

/-- `/on\w+\s*=/i.test(input)`. -/
def hasEventHandler (s : String) : Bool :=
  hasEventHandlerL (lowerChars s.data)

/-- `validateAgentInput(input).valid`; `none` models a missing or
non-string body field (JS falsy check also rejects the empty string). -/
def validateAgentInput (input : Option String) : Bool :=
  match input with
  | none => false
  | some s =>
      if s.isEmpty then false
      else if (trimChars s.data).isEmpty then false
      else if 10000 < s.length then false
      else if hasScriptTag s || hasJavascriptUri s || hasEventHandler s then false
      else true

/-! ## Intent detection regexes (chat.ts lines 115-116 and 126-127)

    const needsMarketData = /(?:price|price of|current price|what's the price|how much is|trading at|market|volume|bitcoin|btc|ethereum|eth|crypto)/i.test(input);
    const needsBlockchain = /(?:balance|transaction|block|address|contract|on-chain|blockchain|wallet|0x[a-fA-F0-9]{40})/i.test(input);
    const marketDataPattern = /(?:price|price of|current price|what's the price|how much is|trading at)\s+([A-Z]{2,10}|bitcoin|btc|ethereum|eth|solana|sol|cardano|ada|polygon|matic)/i;

The first two are pure alternations of literals (plus the address pattern),
so `test` is a disjunction of substring checks.  For the capturing pattern,
`\s` and `\w` classes are disjoint from the symbol alternatives, every
symbol alternative starts with two ASCII letters, and `[A-Z]{2,10}` with
the `i` flag accepts any two ASCII letters, so a match exists exactly when
some prefix alternative is followed by one or more whitespace characters
and then two ASCII letters. -/

/-- `needsMarketData` regex test. -/
def needsMarketData (input : String) : Bool :=
  strContainsCI input "price" || strContainsCI input "price of" ||
    strContainsCI input "current price" ||
    strContainsCI input "what\x27s the price" ||
    strContainsCI input "how much is" || strContainsCI input "trading at" ||
    strContainsCI input "market" || strContainsCI input "volume" ||
    strContainsCI input "bitcoin" || strContainsCI input "btc" ||
    strContainsCI input "ethereum" || strContainsCI input "eth" ||
    strContainsCI input "crypto"

/-- One hex digit of the lowered input (`[a-fA-F0-9]` after lowering). -/
def hexDigit (c : Char) : Bool :=
  c.isDigit || ('a' ≤ c && c ≤ 'f')

/-- `0x[a-fA-F0-9]{40}` anchored at the start of the lowered list. -/
def addressAt (l : List Char) : Bool :=
  match l with
  | '0' :: 'x' :: rest => decide (40 ≤ (rest.takeWhile hexDigit).length)
  | _ => false

/-- Search of the address pattern over the whole lowered list. -/
def hasAddressL : List Char → Bool
  | [] => false
  | c :: cs => addressAt (c :: cs) || hasAddressL cs

/-- `needsBlockchain` regex test. -/
def needsBlockchain (input : String) : Bool :=
  strContainsCI input "balance" || strContainsCI input "transaction" ||
    strContainsCI input "block" || strContainsCI input "address" ||
    strContainsCI input "contract" || strContainsCI input "on-chain" ||
    strContainsCI input "blockchain" || strContainsCI input "wallet" ||
    hasAddressL (lowerChars input.data)

/-- Prefix alternatives of `marketDataPattern` (lowered). -/
def marketPrefixes : List (List Char) :=
  ["price".data, "price of".data, "current price".data,
   "what\x27s the price".data, "how much is".data, "trading at".data]

/-- Continuation of `marketDataPattern` after a prefix alternative:
`\s+` then two ASCII letters (see the regex note above). -/
def marketSymCont (l : List Char) : Bool :=
  match l with
  | c :: rest =>
      jsWhitespace c &&
        (match rest.dropWhile jsWhitespace with
         | a :: b :: _ => a.isAlpha && b.isAlpha
         | _ => false)
  | [] => false

/-- `marketDataPattern` anchored at the start of the lowered list. -/
def marketMatchAt (l : List Char) : Bool :=
  marketPrefixes.any (fun p => prefixMatch p l && marketSymCont (l.drop p.length))

/-- Search of `marketDataPattern` over the whole lowered list. -/
def marketMatchL : List Char → Bool
  | [] => false
  | c :: cs => marketMatchAt (c :: cs) || marketMatchL cs

/-- `input.match(marketDataPattern) !== null`. -/
def marketMatch (input : String) : Bool :=
  marketMatchL (lowerChars input.data)

/-! ## The execution saga (chat.ts POST / handler, lines 20-359)

External collaborators are oracles in a `SagaEnv`:
 - `getAgentFromContract`, `executeAgentOnContract` (begin),
   `verifyExecutionOnContract` (complete) and `releasePaymentToDeveloper`
   live in lib/contract.ts, which is not under src/.  Modelled from the
   spec (section 4.5 and section 6): `beginExecution` returns an execution
   id or null, `completeExecution` returns a boolean, `getAgent` returns an
   agent or null, `release` returns a boolean; none of them is modelled as
   throwing, although the handler also guards `beginExecution` with a
   try/catch that is kept here as an `Except` oracle.
 - the facilitator calls (`verifyPayment`, `settlePayment`) can throw and
   are `Except` oracles, as the handler catches them.
 - `db.addPayment` / `db.addExecution` are wrapped in try/catch in the
   handler; Boolean flags model whether they throw.

The run records the observable effects as an ordered `Event` list. -/

/-- Local PaymentRecord statuses (lib/database.ts interface). -/
inductive PaymentStatus
  | pending
  | settled
  | refunded
  | failed
deriving DecidableEq, Repr

/-- The `{ output, success }` result of `executeAgentWithPrompt`. -/
structure ModelResult where
  output : String
  success : Bool
deriving DecidableEq, Repr

/-- `verifyPayment` result, as far as the handler inspects it. -/
structure VerificationResult where
  valid : Bool
  payerAddress : Option String
  invalidReason : Option String
deriving DecidableEq, Repr

/-- Registry agent, as far as the handler inspects it. -/
structure ContractAgent where
  pricePerExecution : Nat
  developer : String
deriving DecidableEq, Repr

/-- The null beneficiary address checked before releasing payment. -/
def zeroAddress : String := "0x0000000000000000000000000000000000000000"

/-- Observable effects of one saga run, in program order. -/
inductive Event
  | verifyCall
  | marketFetch
  | chainFetch
  | beginCall (result : Option Nat)
  | beginThrew
  | addPayment (status : PaymentStatus)
  | modelCall
  | addExecution
  | completeCall (executionId : Nat) (output : String) (success : Bool)
  | updateExecution
  | settleCall
  | releaseCall
  | updatePayment (status : PaymentStatus)
deriving DecidableEq, Repr

/-- Oracles for one request: everything the handler consumes from the
outside world.  `bodyPaymentHash` and `headerValue` are `none` when the
corresponding value is JS-falsy. -/
structure SagaEnv where
  keccak : String → String
  bodyPaymentHash : Option String
  headerValue : Option String
  contractAgent : Option ContractAgent
  decodeResult : Except String PaymentPayload
  verifyResult : Except String VerificationResult
  blockchainClientAvailable : Bool
  beginResult : Except String (Option Nat)
  dbAddPaymentThrows : Bool
  modelResult : Except String ModelResult
  dbAddExecutionThrows : Bool
  verifyExecOk : Bool
  settleResult : Except String Unit
  agentAfterSettle : Option ContractAgent
  releaseResult : Bool

/-- Result of one saga run: HTTP status and the ordered effect trace. -/
structure SagaOutcome where
  status : Nat
  events : List Event
deriving Repr

/-- The model result the handler proceeds with: the catch around
`executeAgentWithPrompt` turns a thrown error into
`{ output: error message, success: false }`. -/
def effectiveResult (m : Except String ModelResult) : ModelResult :=
  match m with
  | .ok r => r
  | .error e => ⟨e, false⟩

/-- Data fetches performed between verification and the ledger begin call
(chat.ts lines 124-166): market data when the intent regex and the
capturing pattern both match, blockchain data when the intent regex
matches and the SDK client is configured.  Fetch failures are caught and
only affect the prompt context, not control flow. -/
def fetchEvents (env : SagaEnv) (input : String) : List Event :=
  (if needsMarketData input && marketMatch input then [Event.marketFetch] else []) ++
    (if needsBlockchain input && env.blockchainClientAvailable then [Event.chainFetch] else [])

/-- Settlement phase (chat.ts lines 285-320).  On success, settle; then
look the agent up again and release only when it has a non-empty,
non-zero developer address; the payment record is marked `settled` whether
or not the release succeeded, and `failed` if the settle block threw.  On
failure, the record is marked `refunded`. -/
def settleEvents (env : SagaEnv) (success : Bool) : List Event :=
  if success then
    match env.settleResult with
    | .error _ => [Event.settleCall, Event.updatePayment .failed]
    | .ok _ =>
        match env.agentAfterSettle with
        | some a =>
            if a.developer ≠ "" ∧ a.developer ≠ zeroAddress then
              -- both release outcomes mark the record settled in the source
              if env.releaseResult then
                [Event.settleCall, Event.releaseCall, Event.updatePayment .settled]
              else
                [Event.settleCall, Event.releaseCall, Event.updatePayment .settled]
            else [Event.settleCall, Event.updatePayment .settled]
        | none => [Event.settleCall, Event.updatePayment .settled]
  else [Event.updatePayment .refunded]

/-- Effects after a non-null ledger begin (chat.ts lines 216-320): log the
pending payment (db failure caught), invoke the model (failure caught,
see `effectiveResult`), log the execution (db failure caught), always call
`verifyExecutionOnContract` with the available output and success flag,
mark the execution verified when the call reports success, then settle. -/
def postBeginEvents (env : SagaEnv) (id : Nat) : List Event :=
  (if env.dbAddPaymentThrows then [] else [Event.addPayment .pending]) ++
    [Event.modelCall] ++
    (if env.dbAddExecutionThrows then [] else [Event.addExecution]) ++
    [Event.completeCall id (effectiveResult env.modelResult).output
      (effectiveResult env.modelResult).success] ++
    (if env.verifyExecOk then [Event.updateExecution] else []) ++
    settleEvents env (effectiveResult env.modelResult).success

/-- The POST /api/chat handler body (after the validation middleware).
`input` is the sanitized input the handler destructures from the body. -/
def sagaRun (env : SagaEnv) (input : String) : SagaOutcome :=
  if input.isEmpty then ⟨400, []⟩
  else
    match env.contractAgent with
    | none => ⟨404, []⟩
    | some _agent =>
        -- both the missing-everything branch (402 challenge) and the
        -- missing-header branch return 402 with no effects
        match env.headerValue with
        | none => ⟨402, []⟩
        | some hv =>
            match env.decodeResult with
            | .error _ => ⟨402, []⟩
            | .ok payload =>
                match env.verifyResult with
                | .error _ => ⟨402, [Event.verifyCall]⟩
                | .ok v =>
                    if !v.valid then ⟨402, [Event.verifyCall]⟩
                    else
                      let _hash := computePaymentHash env.keccak env.bodyPaymentHash payload hv
                      match env.beginResult with
                      | .error _ =>
                          ⟨500, Event.verifyCall :: fetchEvents env input ++ [Event.beginThrew]⟩
                      | .ok none =>
                          ⟨402, Event.verifyCall :: fetchEvents env input ++ [Event.beginCall none]⟩
                      | .ok (some id) =>
                          ⟨200, Event.verifyCall :: fetchEvents env input ++
                            [Event.beginCall (some id)] ++ postBeginEvents env id⟩

/-! ## Event classifiers and the middleware pipeline -/

/-- Is the event a data fetch? -/
def isFetch : Event → Bool
  | .marketFetch => true
  | .chainFetch => true
  | _ => false

/-- Is the event the facilitator verify call? -/
def isVerifyEv : Event → Bool
  | .verifyCall => true
  | _ => false

/-- Is the event an interaction with the ledger begin call? -/
def isBeginEv : Event → Bool
  | .beginCall _ => true
  | .beginThrew => true
  | _ => false

/-- Is the event the ledger complete call? -/
def isCompleteEv : Event → Bool
  | .completeCall _ _ _ => true
  | _ => false

/-- Is the event the model invocation? -/
def isModelCall : Event → Bool
  | .modelCall => true
  | _ => false

/-- Is the event a local payment-record status update? -/
def isUpdatePayment : Event → Bool
  | .updatePayment _ => true
  | _ => false

/-- Is the event the facilitator settle call? -/
def isSettleEv : Event → Bool
  | .settleCall => true
  | _ => false

/-- Is the event the escrow release call? -/
def isReleaseEv : Event → Bool
  | .releaseCall => true
  | _ => false

/-- Is the event the creation of a local payment record? -/
def isAddPaymentEv : Event → Bool
  | .addPayment _ => true
  | _ => false

/-- Is the event the creation of a local execution record? -/
def isAddExecutionEv : Event → Bool
  | .addExecution => true
  | _ => false

/-- Does some data fetch happen strictly before any ledger begin
interaction in the trace? -/
def fetchBeforeBegin (evs : List Event) : Bool :=
  (evs.takeWhile (fun e => !isBeginEv e)).any isFetch

/-- Result of the full route pipeline: status, effect trace, and the input
string actually handed to the saga (none when rejected earlier). -/
structure PipelineOutcome where
  status : Nat
  events : List Event
  sagaInput : Option String
deriving Repr

/-- POST /api/chat wiring: `chatRateLimit`, then
`validateAgentInputMiddleware` (400 on invalid input, otherwise replace
the body input by `sanitizeString(input, 10000)`), then the handler. -/
def chatPipeline (env : SagaEnv) (rateLimited : Bool) (rawInput : Option String) :
    PipelineOutcome :=
  if rateLimited then ⟨429, [], none⟩
  else if validateAgentInput rawInput then
    let sanitized := sanitizeString (rawInput.getD "") 10000
    let r := sagaRun env sanitized
    ⟨r.status, r.events, some sanitized⟩
  else ⟨400, [], none⟩

/-! ## Concrete environments used by witnesses and counterexamples -/

/-- A run whose model invocation throws, after a successful begin. -/
def envC1w : SagaEnv := {
  keccak := fun s => "0xk" ++ s
  bodyPaymentHash := some "0xaa"
  headerValue := some "hdr"
  contractAgent := some ⟨100000, ""⟩
  decodeResult := .ok ⟨none, "p", "n", "1", "0", "9"⟩
  verifyResult := .ok ⟨true, some "0xpayer", none⟩
  blockchainClientAvailable := false
  beginResult := .ok (some 7)
  dbAddPaymentThrows := false
  modelResult := .error "boom"
  dbAddExecutionThrows := false
  verifyExecOk := true
  settleResult := .ok ()
  agentAfterSettle := some ⟨100000, ""⟩
  releaseResult := true }

/-- A run whose model output fails validation (`success = false`). -/
def envC2w : SagaEnv := {
  keccak := fun s => "0xk" ++ s
  bodyPaymentHash := some "0xaa"
  headerValue := some "hdr"
  contractAgent := some ⟨100000, ""⟩
  decodeResult := .ok ⟨none, "p", "n", "1", "0", "9"⟩
  verifyResult := .ok ⟨true, some "0xpayer", none⟩
  blockchainClientAvailable := false
  beginResult := .ok (some 3)
  dbAddPaymentThrows := false
  modelResult := .ok ⟨"Error", false⟩
  dbAddExecutionThrows := false
  verifyExecOk := false
  settleResult := .ok ()
  agentAfterSettle := some ⟨100000, ""⟩
  releaseResult := true }

/-- A run whose payment verification reports `valid: false`. -/
def envC3w : SagaEnv := {
  keccak := fun s => "0xk" ++ s
  bodyPaymentHash := some "0xaa"
  headerValue := some "hdr"
  contractAgent := some ⟨100000, ""⟩
  decodeResult := .ok ⟨none, "p", "n", "1", "0", "9"⟩
  verifyResult := .ok ⟨false, none, some "insufficient amount"⟩
  blockchainClientAvailable := true
  beginResult := .ok (some 7)
  dbAddPaymentThrows := false
  modelResult := .ok ⟨"a sufficiently long model output here", true⟩
  dbAddExecutionThrows := false
  verifyExecOk := true
  settleResult := .ok ()
  agentAfterSettle := some ⟨100000, ""⟩
  releaseResult := true }

/-- A run that performs a blockchain data fetch and then opens the ledger. -/
def envC4cx : SagaEnv := {
  keccak := fun s => "0xk" ++ s
  bodyPaymentHash := some "0xaa"
  headerValue := some "hdr"
  contractAgent := some ⟨100000, ""⟩
  decodeResult := .ok ⟨none, "p", "n", "1", "0", "9"⟩
  verifyResult := .ok ⟨true, some "0xpayer", none⟩
  blockchainClientAvailable := true
  beginResult := .ok (some 7)
  dbAddPaymentThrows := false
  modelResult := .ok ⟨"a sufficiently long model output here", true⟩
  dbAddExecutionThrows := false
  verifyExecOk := true
  settleResult := .ok ()
  agentAfterSettle := some ⟨100000, ""⟩
  releaseResult := true }

/-- A successful run whose agent has no developer address configured. -/
def envC5w : SagaEnv := {
  keccak := fun s => "0xk" ++ s
  bodyPaymentHash := some "0xaa"
  headerValue := some "hdr"
  contractAgent := some ⟨100000, ""⟩
  decodeResult := .ok ⟨none, "p", "n", "1", "0", "9"⟩
  verifyResult := .ok ⟨true, some "0xpayer", none⟩
  blockchainClientAvailable := false
  beginResult := .ok (some 9)
  dbAddPaymentThrows := false
  modelResult := .ok ⟨"a sufficiently long model output here", true⟩
  dbAddExecutionThrows := false
  verifyExecOk := true
  settleResult := .ok ()
  agentAfterSettle := some ⟨100000, ""⟩
  releaseResult := true }

/-- Three transient failures in a row, for the retry-policy witness. -/
def callC7w : Nat → Except String String :=
  fun k => .error (if k = 1 then "e1 503" else if k = 2 then "e2 429" else "e3 500")

/-- A first attempt failing with a 503 error code but an uninformative
message, then a successful second attempt, for the retry counterexample. -/
def envC7cx : ChatModelEnv := {
  geminiKey := true
  openRouterKey := false
  importOpenAIOk := true
  call := fun k _ =>
    if k = 1 then .error ⟨"boom", some 503, none⟩
    else .ok "a sufficiently long model output for the retry counterexample" }

/-- Three transient failures in a row on Gemini with no failover
configured, for the amended retry witness. -/
def envC7w : ChatModelEnv := {
  geminiKey := true
  openRouterKey := false
  importOpenAIOk := true
  call := fun k _ =>
    .error (if k = 1 then ⟨"e1 503", none, none⟩
      else if k = 2 then ⟨"e2 429", none, none⟩
      else ⟨"e3 500", none, none⟩) }

/-- Environment for the pipeline witness. -/
def envC10w : SagaEnv := envC5w

end AgentMarket

namespace AgentMarket

/-! ## Theorems -/

/-- C6: for every model output, the computed success flag is true if and
only if the output length is strictly between 10 and 100000 and the output
does not match the error heuristic (length under 100 and lowercased text
starting with "error" or "failed", or containing "exception:" or
"api key"). -/
theorem C6_output_success_iff (out : String) :
    outputSuccess out = true ↔
      (10 < out.length ∧ out.length < 100000 ∧
        ¬(out.length < 100 ∧
          (strStartsWith (String.mk (lowerChars out.data)) "error" = true ∨
           strStartsWith (String.mk (lowerChars out.data)) "failed" = true ∨
           strContains (String.mk (lowerChars out.data)) "exception:" = true ∨
           strContains (String.mk (lowerChars out.data)) "api key" = true))) := by
  by_cases h1 : 10 < out.length <;>
    by_cases h2 : out.length < 100000 <;>
    by_cases h3 : out.length < 100 <;>
    by_cases h4 : strStartsWith (String.mk (lowerChars out.data)) "error" = true <;>
    by_cases h5 : strStartsWith (String.mk (lowerChars out.data)) "failed" = true <;>
    by_cases h6 : strContains (String.mk (lowerChars out.data)) "exception:" = true <;>
    by_cases h7 : strContains (String.mk (lowerChars out.data)) "api key" = true <;>
    simp [outputSuccess, isValidLength, looksLikeError, h1, h2, h3, h4, h5, h6, h7]

/-- C9: the USD to atomic conversion scales by 10^6 and, on the
non-negative prices it is applied to, rounds by truncation toward zero;
priceUsd = 0.10 converts to exactly 100000. -/
theorem C9_usd_conversion :
    usdToUsdc (1 / 10) = 100000 ∧
      ∀ q : ℚ, 0 ≤ q → usdToUsdc q = ratTruncTowardZero (q * 1000000) := by
  constructor
  · norm_num [usdToUsdc]
  · intro q hq
    unfold usdToUsdc ratTruncTowardZero
    have hq' : (0 : ℚ) ≤ q * 1000000 := by positivity
    have hnum : (0 : ℤ) ≤ (q * 1000000).num := Rat.num_nonneg.mpr hq'
    have hden : (0 : ℤ) ≤ ((q * 1000000).den : ℤ) := Int.ofNat_nonneg _
    rw [Int.tdiv_eq_ediv hnum hden]
    calc ⌊q * 1000000⌋
        = ⌊((q * 1000000).num : ℚ) / ((q * 1000000).den : ℚ)⌋ := by
          rw [Rat.num_div_den]
      _ = (q * 1000000).num / ((q * 1000000).den : ℤ) :=
          Rat.floor_intCast_div_natCast _ _

/-- C9 witness: the conversion agrees with truncation toward zero at the
concrete price 0.10. -/
theorem C9_witness :
    (0 : ℚ) ≤ 1 / 10 ∧
      usdToUsdc (1 / 10) = ratTruncTowardZero ((1 / 10) * 1000000) :=
  ⟨by norm_num, C9_usd_conversion.2 (1 / 10) (by norm_num)⟩

/-- The executor.ts retry loop: at most 3 attempts; every non-final
attempt failed with a message-transient error; the backoff delays are the
base delay times the attempt number, in order; a non-transient first error
aborts immediately with that error after one call; and three straight
failures (the first two transient) propagate the last error after exactly
three calls. -/
theorem executorRetry_spec (call : Nat → Except String String) :
    (executeWithRetry call).calls ≤ 3 ∧
    (∀ k, 1 ≤ k → k < (executeWithRetry call).calls →
      ∃ e, call k = .error e ∧ isRetryableMsg e = true) ∧
    (executeWithRetry call).delays =
      (List.range ((executeWithRetry call).calls - 1)).map
        (fun i => retryDelay * (i + 2)) ∧
    (∀ e, call 1 = .error e → isRetryableMsg e = false →
      (executeWithRetry call).result = .error e ∧
        (executeWithRetry call).calls = 1) ∧
    (∀ e1 e2 e3, call 1 = .error e1 → call 2 = .error e2 →
      call 3 = .error e3 → isRetryableMsg e1 = true →
      isRetryableMsg e2 = true →
      (executeWithRetry call).result = .error e3 ∧
        (executeWithRetry call).calls = 3) := by
  rcases hc1 : call 1 with e1 | o1
  · -- first call threw
    by_cases hr1 : isRetryableMsg e1 = true
    · rcases hc2 : call 2 with e2 | o2
      · by_cases hr2 : isRetryableMsg e2 = true
        · -- two transient failures: the third call decides the outcome
          rcases hc3 : call 3 with e3 | o3
          · have hE : executeWithRetry call =
                ⟨.error e3, 3, [retryDelay * 2, retryDelay * 3], some e3⟩ := by
              simp [executeWithRetry, retryGo, hc1, hc2, hc3, hr1, hr2]
            refine ⟨?_, ?_, ?_, ?_, ?_⟩
            · rw [hE]
            · rw [hE]
              intro k h1 h2
              have h2' : k < 3 := h2
              interval_cases k
              · exact ⟨e1, hc1, hr1⟩
              · exact ⟨e2, hc2, hr2⟩
            · rw [hE]
              simp [retryDelay, List.range_succ]
            · intro e he hne
              injection he with he'
              subst he'
              rw [hr1] at hne
              cases hne
            · intro f1 f2 f3 h1 h2 h3 _ _
              injection h3 with h3'
              subst h3'
              rw [hE]
              exact ⟨rfl, rfl⟩
          · have hE : executeWithRetry call =
                if o3.isEmpty then
                  ⟨.error e2, 3, [retryDelay * 2, retryDelay * 3], some e2⟩
                else ⟨.ok o3, 3, [retryDelay * 2, retryDelay * 3], some e2⟩ := by
              by_cases ho : o3.isEmpty <;>
                simp [executeWithRetry, retryGo, hc1, hc2, hc3, hr1, hr2, ho]
            refine ⟨?_, ?_, ?_, ?_, ?_⟩
            · rw [hE]
              by_cases ho : o3.isEmpty <;> simp [ho]
            · rw [hE]
              by_cases ho : o3.isEmpty <;> simp only [ho] <;> simp <;>
                · intro k h1 h2
                  interval_cases k
                  · exact ⟨e1, hc1, hr1⟩
                  · exact ⟨e2, hc2, hr2⟩
            · rw [hE]
              by_cases ho : o3.isEmpty <;> simp [ho, retryDelay, List.range_succ]
            · intro e he hne
              injection he with he'
              subst he'
              rw [hr1] at hne
              cases hne
            · intro f1 f2 f3 h1 h2 h3 _ _
              cases h3
        · -- second error not transient: abort with it after two calls
          have hE : executeWithRetry call =
              ⟨.error e2, 2, [retryDelay * 2], some e2⟩ := by
            simp [executeWithRetry, retryGo, hc1, hc2, hr1, hr2]
          refine ⟨?_, ?_, ?_, ?_, ?_⟩
          · rw [hE]
            simp
          · rw [hE]
            intro k h1 h2
            have h2' : k < 2 := h2
            have hk : k = 1 := by omega
            subst hk
            exact ⟨e1, hc1, hr1⟩
          · rw [hE]
            simp [retryDelay, List.range_succ]
          · intro e he hne
            injection he with he'
            subst he'
            rw [hr1] at hne
            cases hne
          · intro f1 f2 f3 h1 h2 h3 _ hr2'
            injection h2 with h2'
            subst h2'
            exact absurd hr2' hr2
      · -- retried once, second call succeeded
        have hE : executeWithRetry call =
            if o2.isEmpty then
              ⟨.error e1, 2, [retryDelay * 2], some e1⟩
            else ⟨.ok o2, 2, [retryDelay * 2], some e1⟩ := by
          by_cases ho : o2.isEmpty <;>
            simp [executeWithRetry, retryGo, hc1, hc2, hr1, ho]
        refine ⟨?_, ?_, ?_, ?_, ?_⟩
        · rw [hE]
          by_cases ho : o2.isEmpty <;> simp [ho]
        · rw [hE]
          by_cases ho : o2.isEmpty <;> simp only [ho] <;> simp <;>
            · intro k h1 h2
              have hk : k = 1 := by omega
              subst hk
              exact ⟨e1, hc1, hr1⟩
        · rw [hE]
          by_cases ho : o2.isEmpty <;> simp [ho, retryDelay, List.range_succ]
        · intro e he hne
          injection he with he'
          subst he'
          rw [hr1] at hne
          cases hne
        · intro f1 f2 f3 h1 h2 h3 _ _
          cases h2
    · -- first error not transient: abort immediately
      have hE : executeWithRetry call = ⟨.error e1, 1, [], some e1⟩ := by
        simp [executeWithRetry, retryGo, hc1, hr1]
      refine ⟨?_, ?_, ?_, ?_, ?_⟩
      · rw [hE]
        simp
      · rw [hE]
        intro k h1 h2
        have h2' : k < 1 := h2
        omega
      · rw [hE]
        simp
      · intro e he _
        injection he with he'
        subst he'
        rw [hE]
        exact ⟨rfl, rfl⟩
      · intro f1 f2 f3 h1 h2 h3 hr1' _
        injection h1 with h1'
        subst h1'
        exact absurd hr1' hr1
  · -- first call succeeded: one call, no delays
    have hE : executeWithRetry call =
        if o1.isEmpty then
          ⟨.error "Failed to get response from Gemini", 1, [], none⟩
        else ⟨.ok o1, 1, [], none⟩ := by
      by_cases ho : o1.isEmpty <;> simp [executeWithRetry, retryGo, hc1, ho]
    refine ⟨?_, ?_, ?_, ?_, ?_⟩
    · rw [hE]
      by_cases ho : o1.isEmpty <;> simp [ho]
    · rw [hE]
      by_cases ho : o1.isEmpty <;> simp only [ho] <;> simp <;>
        · intro k h1 h2
          omega
    · rw [hE]
      by_cases ho : o1.isEmpty <;> simp [ho]
    · intro e he
      cases he
    · intro f1 f2 f3 h1 _ _ _ _
      cases h1


/-! ## List and trace helper lemmas -/

/-- `takeWhile` passes over a block whose elements all satisfy `p`. -/
theorem takeWhile_append_of_all {α : Type} {p : α → Bool} {l₁ l₂ : List α}
    (h : ∀ a ∈ l₁, p a = true) :
    (l₁ ++ l₂).takeWhile p = l₁ ++ l₂.takeWhile p := by
  induction l₁ with
  | nil => simp
  | cons a l ih =>
      simp only [List.cons_append, List.takeWhile_cons,
        h a (List.mem_cons_self a l), if_true]
      rw [ih (fun b hb => h b (List.mem_cons_of_mem a hb))]

/-- `dropWhile` consumes a block whose elements all satisfy `p`. -/
theorem dropWhile_append_of_all {α : Type} {p : α → Bool} {l₁ l₂ : List α}
    (h : ∀ a ∈ l₁, p a = true) :
    (l₁ ++ l₂).dropWhile p = l₂.dropWhile p := by
  induction l₁ with
  | nil => simp
  | cons a l ih =>
      simp only [List.cons_append, List.dropWhile_cons,
        h a (List.mem_cons_self a l), if_true]
      exact ih (fun b hb => h b (List.mem_cons_of_mem a hb))

/-- The head surviving a `dropWhile` does not satisfy the predicate. -/
theorem head?_dropWhile_false {α : Type} {p : α → Bool} (l : List α) :
    ∀ c, (l.dropWhile p).head? = some c → p c = false := by
  induction l with
  | nil => intro c hc; cases hc
  | cons a l ih =>
      intro c hc
      by_cases hp : p a = true
      · rw [List.dropWhile_cons, if_pos hp] at hc
        exact ih c hc
      · rw [List.dropWhile_cons, if_neg hp] at hc
        injection hc with hc'
        subst hc'
        exact Bool.eq_false_iff.mpr hp

/-- `trimChars` only removes elements. -/
theorem trimChars_sublist (l : List Char) : (trimChars l).Sublist l := by
  unfold trimChars
  have h1 : (((l.dropWhile jsWhitespace).reverse.dropWhile jsWhitespace)).Sublist
      (l.dropWhile jsWhitespace).reverse := List.dropWhile_sublist _
  have h2 := h1.reverse
  rw [List.reverse_reverse] at h2
  exact h2.trans (List.dropWhile_sublist _)

/-- A member of the trimmed list is a member of the original list. -/
theorem mem_trimChars {c : Char} {l : List Char} (h : c ∈ trimChars l) : c ∈ l :=
  (trimChars_sublist l).subset h

/-- The trimmed list starts with a non-whitespace character. -/
theorem trimChars_head?_not_ws (l : List Char) :
    ∀ c, (trimChars l).head? = some c → jsWhitespace c = false := by
  intro c hc
  have hsuf : ((l.dropWhile jsWhitespace).reverse.dropWhile jsWhitespace) <:+
      (l.dropWhile jsWhitespace).reverse := List.dropWhile_suffix _
  have hsuf' : (trimChars l).reverse <:+ (l.dropWhile jsWhitespace).reverse := by
    unfold trimChars
    rw [List.reverse_reverse]
    exact hsuf
  have hpre : trimChars l <+: l.dropWhile jsWhitespace := List.reverse_suffix.mp hsuf'
  rcases hpre with ⟨t, ht⟩
  rcases hl : trimChars l with _ | ⟨a, rest⟩
  · rw [hl] at hc; cases hc
  · rw [hl] at hc
    injection hc with hc'
    rw [hl] at ht
    have hhead : (l.dropWhile jsWhitespace).head? = some a := by
      rw [← ht]; rfl
    have ha := head?_dropWhile_false l a hhead
    rw [← hc']
    exact ha

/-- The trimmed list ends with a non-whitespace character. -/
theorem trimChars_getLast?_not_ws (l : List Char) :
    ∀ c, (trimChars l).getLast? = some c → jsWhitespace c = false := by
  intro c hc
  unfold trimChars at hc
  rw [List.getLast?_reverse] at hc
  exact head?_dropWhile_false _ c hc

/-- Every fetch-phase event is a data fetch. -/
theorem mem_fetchEvents {env : SagaEnv} {input : String} {e : Event}
    (h : e ∈ fetchEvents env input) :
    e = Event.marketFetch ∨ e = Event.chainFetch := by
  unfold fetchEvents at h
  rcases List.mem_append.mp h with h | h <;> split_ifs at h <;> simp_all

/-- Events of the settlement phase. -/
theorem mem_settleEvents {env : SagaEnv} {s : Bool} {e : Event}
    (h : e ∈ settleEvents env s) :
    e = Event.settleCall ∨ e = Event.releaseCall ∨
      e = Event.updatePayment .failed ∨ e = Event.updatePayment .settled ∨
      e = Event.updatePayment .refunded := by
  unfold settleEvents at h
  cases s
  · simp at h
    tauto
  · rcases hs : env.settleResult with m | u <;> simp [hs] at h
    · tauto
    · rcases ha : env.agentAfterSettle with _ | a <;> simp [ha] at h
      · tauto
      · split_ifs at h <;> simp at h <;> tauto

/-- Events of the post-begin phase. -/
theorem mem_postBeginEvents {env : SagaEnv} {id : Nat} {e : Event}
    (h : e ∈ postBeginEvents env id) :
    e = Event.addPayment .pending ∨ e = Event.modelCall ∨
      e = Event.addExecution ∨
      e = Event.completeCall id (effectiveResult env.modelResult).output
            (effectiveResult env.modelResult).success ∨
      e = Event.updateExecution ∨
      e ∈ settleEvents env (effectiveResult env.modelResult).success := by
  unfold postBeginEvents at h
  split_ifs at h <;>
    simp only [List.mem_append, List.mem_cons, List.mem_singleton,
      List.not_mem_nil, List.nil_append, false_or, or_false] at h <;>
    tauto

/-- The settlement phase never calls the ledger complete operation. -/
theorem filter_complete_settleEvents (env : SagaEnv) (s : Bool) :
    (settleEvents env s).filter isCompleteEv = [] := by
  rw [List.filter_eq_nil_iff]
  intro a ha
  rcases mem_settleEvents ha with rfl | rfl | rfl | rfl | rfl <;> simp [isCompleteEv]

/-- The post-begin phase calls the ledger complete operation exactly once,
with the effective output and success flag. -/
theorem filter_complete_postBegin (env : SagaEnv) (id : Nat) :
    (postBeginEvents env id).filter isCompleteEv =
      [Event.completeCall id (effectiveResult env.modelResult).output
        (effectiveResult env.modelResult).success] := by
  unfold postBeginEvents
  by_cases h1 : env.dbAddPaymentThrows <;> by_cases h2 : env.dbAddExecutionThrows <;>
    by_cases h3 : env.verifyExecOk <;>
    simp [h1, h2, h3, List.filter_append, filter_complete_settleEvents, isCompleteEv]

/-- The fetch phase contains no ledger complete call. -/
theorem filter_complete_fetchEvents (env : SagaEnv) (input : String) :
    (fetchEvents env input).filter isCompleteEv = [] := by
  rw [List.filter_eq_nil_iff]
  intro a ha
  rcases mem_fetchEvents ha with rfl | rfl <;> simp [isCompleteEv]

/-- The fetch phase contains no payment-record update. -/
theorem filter_upd_fetchEvents (env : SagaEnv) (input : String) :
    (fetchEvents env input).filter isUpdatePayment = [] := by
  rw [List.filter_eq_nil_iff]
  intro a ha
  rcases mem_fetchEvents ha with rfl | rfl <;> simp [isUpdatePayment]

/-- The payment-record updates of the post-begin phase are exactly those of
its settlement phase. -/
theorem filter_upd_postBegin (env : SagaEnv) (id : Nat) :
    (postBeginEvents env id).filter isUpdatePayment =
      (settleEvents env (effectiveResult env.modelResult).success).filter
        isUpdatePayment := by
  unfold postBeginEvents
  by_cases h1 : env.dbAddPaymentThrows <;> by_cases h2 : env.dbAddExecutionThrows <;>
    by_cases h3 : env.verifyExecOk <;>
    simp [h1, h2, h3, List.filter_append, isUpdatePayment]

/-- A failed execution marks the payment refunded, and nothing else. -/
theorem filter_upd_settleEvents_false (env : SagaEnv) :
    (settleEvents env false).filter isUpdatePayment =
      [Event.updatePayment .refunded] := rfl

/-- Payment-record updates of the settlement phase pin down the success
flag: `refunded` comes from a failed execution, `settled` and `failed`
from a successful one. -/
theorem updatePayment_mem_settleEvents {env : SagaEnv} {s : Bool}
    {st : PaymentStatus} (h : Event.updatePayment st ∈ settleEvents env s) :
    (s = false ∧ st = .refunded) ∨
      (s = true ∧ (st = .settled ∨ st = .failed)) := by
  unfold settleEvents at h
  cases s
  · left
    simp at h
    exact ⟨rfl, h⟩
  · right
    refine ⟨rfl, ?_⟩
    rcases hs : env.settleResult with m | u <;> simp [hs] at h
    · exact Or.inr h
    · rcases ha : env.agentAfterSettle with _ | a <;> simp [ha] at h
      · exact Or.inl h
      · split_ifs at h <;> simp at h <;> exact Or.inl h

/-- A release call in the settlement phase implies a successful execution,
a successful settle, and a configured beneficiary. -/
theorem releaseCall_mem_settleEvents {env : SagaEnv} {s : Bool}
    (h : Event.releaseCall ∈ settleEvents env s) :
    s = true ∧ env.settleResult = Except.ok () ∧
      ∃ a, env.agentAfterSettle = some a ∧
        a.developer ≠ "" ∧ a.developer ≠ zeroAddress := by
  unfold settleEvents at h
  cases s
  · simp at h
  · refine ⟨rfl, ?_⟩
    rcases hs : env.settleResult with m | u <;> simp [hs] at h
    · rcases ha : env.agentAfterSettle with _ | a <;> simp [ha] at h
      · by_cases hd : a.developer ≠ "" ∧ a.developer ≠ zeroAddress
        · exact ⟨by cases u; rfl, a, rfl, hd.1, hd.2⟩
        · rw [if_neg hd] at h
          simp at h

/-- A settle-success with no configured beneficiary still marks the
payment settled. -/
theorem settled_mem_settleEvents_ok (env : SagaEnv)
    (hs : env.settleResult = Except.ok ()) :
    Event.updatePayment .settled ∈ settleEvents env true := by
  unfold settleEvents
  rcases ha : env.agentAfterSettle with _ | a <;> simp [hs, ha]
  split_ifs <;> simp

/-- The ledger complete call is always part of the post-begin phase. -/
theorem complete_mem_postBegin (env : SagaEnv) (id : Nat) :
    Event.completeCall id (effectiveResult env.modelResult).output
      (effectiveResult env.modelResult).success ∈ postBeginEvents env id := by
  unfold postBeginEvents
  simp

/-- The post-begin phase performs no data fetch. -/
theorem fetch_not_mem_postBegin {env : SagaEnv} {id : Nat} {e : Event}
    (h : e ∈ postBeginEvents env id) : isFetch e = false := by
  rcases mem_postBeginEvents h with rfl | rfl | rfl | rfl | rfl | hse
  · rfl
  · rfl
  · rfl
  · rfl
  · rfl
  · rcases mem_settleEvents hse with rfl | rfl | rfl | rfl | rfl <;> rfl

/-- The post-begin phase never touches the ledger begin operation. -/
theorem begin_not_mem_postBegin {env : SagaEnv} {id : Nat} {e : Event}
    (h : e ∈ postBeginEvents env id) : isBeginEv e = false := by
  rcases mem_postBeginEvents h with rfl | rfl | rfl | rfl | rfl | hse
  · rfl
  · rfl
  · rfl
  · rfl
  · rfl
  · rcases mem_settleEvents hse with rfl | rfl | rfl | rfl | rfl <;> rfl

/-- Case analysis of the saga trace: no effects before verification, a bare
verification failure, or verification followed by fetches and one of the
three begin outcomes. -/
theorem sagaRun_shape (env : SagaEnv) (input : String) :
    (sagaRun env input).events = [] ∨
    (sagaRun env input).events = [Event.verifyCall] ∨
    (sagaRun env input).events =
      (Event.verifyCall :: fetchEvents env input) ++ [Event.beginThrew] ∨
    (sagaRun env input).events =
      (Event.verifyCall :: fetchEvents env input) ++ [Event.beginCall none] ∨
    ∃ id, env.beginResult = Except.ok (some id) ∧
      (sagaRun env input).events =
        (Event.verifyCall :: fetchEvents env input) ++
          (Event.beginCall (some id) :: postBeginEvents env id) := by
  by_cases hin : input.isEmpty
  · left
    simp [sagaRun, hin]
  · rcases hag : env.contractAgent with _ | ag
    · left
      simp [sagaRun, hin, hag]
    · rcases hh : env.headerValue with _ | hv
      · left
        simp [sagaRun, hin, hag, hh]
      · rcases hd : env.decodeResult with m | p
        · left
          simp [sagaRun, hin, hag, hh, hd]
        · rcases hv2 : env.verifyResult with m | v
          · right; left
            simp [sagaRun, hin, hag, hh, hd, hv2]
          · by_cases hval : v.valid = true
            · rcases hb : env.beginResult with m | o
              · right; right; left
                simp [sagaRun, hin, hag, hh, hd, hv2, hval, hb]
              · rcases o with _ | id
                · right; right; right; left
                  simp [sagaRun, hin, hag, hh, hd, hv2, hval, hb]
                · right; right; right; right
                  exact ⟨id, rfl, by
                    simp [sagaRun, hin, hag, hh, hd, hv2, hval, hb]⟩
            · right; left
              simp [sagaRun, hin, hag, hh, hd, hv2, hval]

/-- Events before the begin call are the verification and the fetches. -/
theorem mem_prefix_trace {env : SagaEnv} {input : String} {e : Event}
    (h : e ∈ Event.verifyCall :: fetchEvents env input) :
    e = Event.verifyCall ∨ e = Event.marketFetch ∨ e = Event.chainFetch := by
  rcases List.mem_cons.mp h with h | h
  · exact Or.inl h
  · rcases mem_fetchEvents h with h | h
    · exact Or.inr (Or.inl h)
    · exact Or.inr (Or.inr h)

/-- Up to its settle call, the settlement phase performs no release call:
the phase either starts with the settle call or contains no release. -/
theorem takeWhile_settle_no_release (env : SagaEnv) (s : Bool) :
    ((settleEvents env s).takeWhile (fun e => !isSettleEv e)).filter
      isReleaseEv = [] := by
  cases s
  · rfl
  · unfold settleEvents
    rcases hs : env.settleResult with m | u
    · rfl
    · rcases ha : env.agentAfterSettle with _ | a
      · rfl
      · by_cases hd : a.developer ≠ "" ∧ a.developer ≠ zeroAddress
        · cases hr : env.releaseResult <;>
            simp [hd, isSettleEv, isReleaseEv, List.takeWhile_cons]
        · simp [hd, isSettleEv, isReleaseEv, List.takeWhile_cons]

/-- Membership form of `takeWhile_settle_no_release`. -/
theorem takeWhile_settle_no_release_mem (env : SagaEnv) (s : Bool) :
    ∀ a ∈ (settleEvents env s).takeWhile (fun e => !isSettleEv e),
      isReleaseEv a = false := by
  intro a ha
  have h := List.filter_eq_nil_iff.mp (takeWhile_settle_no_release env s) a ha
  simpa using h

/-- Up to its settle call, the post-begin phase performs no release call. -/
theorem takeWhile_settle_postBegin_no_release (env : SagaEnv) (id : Nat) :
    ((postBeginEvents env id).takeWhile (fun e => !isSettleEv e)).filter
      isReleaseEv = [] := by
  unfold postBeginEvents
  by_cases h1 : env.dbAddPaymentThrows <;> by_cases h2 : env.dbAddExecutionThrows <;>
    by_cases h3 : env.verifyExecOk <;>
    simp [h1, h2, h3, List.takeWhile_cons, List.filter_cons, isSettleEv,
      isReleaseEv] <;>
    exact fun a ha => takeWhile_settle_no_release_mem env _ a ha

/-- C1: whenever the ledger begin call returns a non-null execution id, the
saga calls the ledger complete call exactly once on every path, with the
available output text and success flag; when the model invocation threw,
the closing output is the error message and the flag is false. -/
theorem C1_opened_execution_always_closed (env : SagaEnv) (input : String)
    (id : Nat) (h : Event.beginCall (some id) ∈ (sagaRun env input).events) :
    ((sagaRun env input).events.filter isCompleteEv) =
      [Event.completeCall id (effectiveResult env.modelResult).output
        (effectiveResult env.modelResult).success] ∧
    ∀ e, env.modelResult = Except.error e →
      (effectiveResult env.modelResult).output = e ∧
      (effectiveResult env.modelResult).success = false := by
  rcases sagaRun_shape env input with hs | hs | hs | hs | ⟨id2, hb, hs⟩
  · rw [hs] at h
    exact absurd h (List.not_mem_nil _)
  · rw [hs] at h
    simp at h
  · rw [hs] at h
    rcases List.mem_append.mp h with h | h
    · rcases mem_prefix_trace h with h | h | h <;> cases h
    · simp at h
  · rw [hs] at h
    rcases List.mem_append.mp h with h | h
    · rcases mem_prefix_trace h with h | h | h <;> cases h
    · simp at h
  · have hid : id = id2 := by
      rw [hs] at h
      rcases List.mem_append.mp h with h | h
      · rcases mem_prefix_trace h with h | h | h <;> cases h
      · rcases List.mem_cons.mp h with h | h
        · simpa using h
        · simpa [isBeginEv] using begin_not_mem_postBegin h
    subst hid
    constructor
    · rw [hs, List.filter_append]
      simp [List.filter_cons, isCompleteEv, filter_complete_fetchEvents,
        filter_complete_postBegin]
    · intro e he
      rw [he]
      exact ⟨rfl, rfl⟩

/-- C1 witness: a run whose model invocation throws "boom" after begin
returned execution id 7 closes the execution once with that message and
success=false. -/
theorem C1_witness :
    Event.beginCall (some 7) ∈ (sagaRun envC1w "hello").events ∧
      ((sagaRun envC1w "hello").events.filter isCompleteEv =
        [Event.completeCall 7 "boom" false]) :=
  ⟨by decide, (C1_opened_execution_always_closed envC1w "hello" 7 (by decide)).1⟩

/-- C2: an execution completed with success=false marks the local payment
record refunded and nothing else; the settled and failed statuses require
a completion with success=true. -/
theorem C2_failed_execution_refunded (env : SagaEnv) (input : String) :
    (∀ id out, Event.completeCall id out false ∈ (sagaRun env input).events →
      ((sagaRun env input).events.filter isUpdatePayment) =
        [Event.updatePayment .refunded]) ∧
    (∀ st, (st = PaymentStatus.settled ∨ st = PaymentStatus.failed) →
      Event.updatePayment st ∈ (sagaRun env input).events →
      ∃ id out, Event.completeCall id out true ∈ (sagaRun env input).events) := by
  rcases sagaRun_shape env input with hs | hs | hs | hs | ⟨id2, hb, hs⟩
  · refine ⟨?_, ?_⟩ <;> intro _ _ h <;> rw [hs] at h <;>
      exact absurd h (List.not_mem_nil _)
  · refine ⟨?_, ?_⟩
    · intro idx out h
      rw [hs] at h
      simp at h
    · intro st hst h
      rw [hs] at h
      simp at h
  · refine ⟨?_, ?_⟩
    · intro idx out h
      rw [hs] at h
      rcases List.mem_append.mp h with h | h
      · rcases mem_prefix_trace h with h | h | h <;> cases h
      · simp at h
    · intro st hst h
      rw [hs] at h
      rcases List.mem_append.mp h with h | h
      · rcases mem_prefix_trace h with h | h | h <;> cases h
      · simp at h
  · refine ⟨?_, ?_⟩
    · intro idx out h
      rw [hs] at h
      rcases List.mem_append.mp h with h | h
      · rcases mem_prefix_trace h with h | h | h <;> cases h
      · simp at h
    · intro st hst h
      rw [hs] at h
      rcases List.mem_append.mp h with h | h
      · rcases mem_prefix_trace h with h | h | h <;> cases h
      · simp at h
  · refine ⟨?_, ?_⟩
    · intro idx out h
      have hsucc : (effectiveResult env.modelResult).success = false := by
        rw [hs] at h
        rcases List.mem_append.mp h with h | h
        · rcases mem_prefix_trace h with h | h | h <;> cases h
        · rcases List.mem_cons.mp h with h | h
          · cases h
          · rcases mem_postBeginEvents h with h | h | h | h | h | h
            · cases h
            · cases h
            · cases h
            · injection h with h1 h2 h3
              exact h3.symm
            · cases h
            · rcases mem_settleEvents h with h | h | h | h | h <;> cases h
      rw [hs, List.filter_append]
      simp [List.filter_cons, isUpdatePayment, filter_upd_fetchEvents,
        filter_upd_postBegin, hsucc, filter_upd_settleEvents_false]
    · intro st hst h
      have hse : Event.updatePayment st ∈
          settleEvents env (effectiveResult env.modelResult).success := by
        rw [hs] at h
        rcases List.mem_append.mp h with h | h
        · rcases mem_prefix_trace h with h | h | h <;> cases h
        · rcases List.mem_cons.mp h with h | h
          · cases h
          · rcases mem_postBeginEvents h with h | h | h | h | h | h
            · cases h
            · cases h
            · cases h
            · cases h
            · cases h
            · exact h
      rcases updatePayment_mem_settleEvents hse with ⟨_, href⟩ | ⟨htrue, _⟩
      · rcases hst with rfl | rfl <;> cases href
      · refine ⟨id2, (effectiveResult env.modelResult).output, ?_⟩
        have hc := complete_mem_postBegin env id2
        rw [htrue] at hc
        rw [hs]
        exact List.mem_append.mpr (Or.inr (List.mem_cons.mpr (Or.inr hc)))

/-- C2 witness: a run with a failing model output marks the payment
refunded; a successful run with a successful settle reaches settled via a
success=true completion. -/
theorem C2_witness :
    (Event.completeCall 3 "Error" false ∈ (sagaRun envC2w "hi").events ∧
      ((sagaRun envC2w "hi").events.filter isUpdatePayment =
        [Event.updatePayment .refunded])) ∧
    ((PaymentStatus.settled = PaymentStatus.settled ∨
        PaymentStatus.settled = PaymentStatus.failed) ∧
      Event.updatePayment .settled ∈ (sagaRun envC5w "hi").events ∧
      ∃ id out, Event.completeCall id out true ∈ (sagaRun envC5w "hi").events) :=
  ⟨⟨by decide, (C2_failed_execution_refunded envC2w "hi").1 3 "Error" (by decide)⟩,
    ⟨Or.inl rfl, by decide,
      (C2_failed_execution_refunded envC5w "hi").2 PaymentStatus.settled
        (Or.inl rfl) (by decide)⟩⟩

/-- C3: when the payment verification call is reached and reports invalid
or throws, the saga responds 402 with no ledger begin, no settlement, no
completion, and no local payment or execution records. -/
theorem C3_verification_failure_aborts (env : SagaEnv) (input : String)
    (hfail : (∃ m, env.verifyResult = Except.error m) ∨
      ∃ v, env.verifyResult = Except.ok v ∧ v.valid = false)
    (hreach : Event.verifyCall ∈ (sagaRun env input).events) :
    (sagaRun env input).status = 402 ∧
      (sagaRun env input).events = [Event.verifyCall] ∧
      ∀ e ∈ (sagaRun env input).events,
        isBeginEv e = false ∧ isSettleEv e = false ∧ isCompleteEv e = false ∧
          isAddPaymentEv e = false ∧ isAddExecutionEv e = false := by
  have hrun : sagaRun env input = ⟨402, [Event.verifyCall]⟩ := by
    by_cases hin : input.isEmpty
    · exfalso
      simp [sagaRun, hin] at hreach
    · rcases hag : env.contractAgent with _ | ag
      · exfalso
        simp [sagaRun, hin, hag] at hreach
      · rcases hh : env.headerValue with _ | hv
        · exfalso
          simp [sagaRun, hin, hag, hh] at hreach
        · rcases hd : env.decodeResult with m | p
          · exfalso
            simp [sagaRun, hin, hag, hh, hd] at hreach
          · rcases hv2 : env.verifyResult with m | v
            · simp [sagaRun, hin, hag, hh, hd, hv2]
            · have hvalid : v.valid = false := by
                rcases hfail with ⟨m, hm⟩ | ⟨v2, hv3, hval⟩
                · rw [hv2] at hm
                  cases hm
                · rw [hv2] at hv3
                  injection hv3 with hv4
                  rw [hv4]
                  exact hval
              simp [sagaRun, hin, hag, hh, hd, hv2, hvalid]
  rw [hrun]
  refine ⟨rfl, rfl, ?_⟩
  intro e he
  simp at he
  subst he
  exact ⟨rfl, rfl, rfl, rfl, rfl⟩

/-- C3 witness: a verification returning valid=false ("insufficient
amount") yields a 402 with the verification as the only effect. -/
theorem C3_witness :
    ((∃ m, envC3w.verifyResult = Except.error m) ∨
      ∃ v, envC3w.verifyResult = Except.ok v ∧ v.valid = false) ∧
      Event.verifyCall ∈ (sagaRun envC3w "hi").events ∧
      (sagaRun envC3w "hi").status = 402 :=
  ⟨Or.inr ⟨⟨false, none, some "insufficient amount"⟩, rfl, rfl⟩, by decide,
    (C3_verification_failure_aborts envC3w "hi"
      (Or.inr ⟨⟨false, none, some "insufficient amount"⟩, rfl, rfl⟩)
      (by decide)).1⟩

/-- C4 counterexample: in a run of the saga on the input "balance", a
blockchain data fetch happens strictly before the ledger begin call (which
does happen and returns id 7), refuting the claim that the market and
blockchain fetches happen only after the ledger entry has been opened. -/
theorem C4_counterexample :
    fetchBeforeBegin (sagaRun envC4cx "balance").events = true ∧
      Event.beginCall (some 7) ∈ (sagaRun envC4cx "balance").events := by
  constructor <;> decide

/-- C4 amended: the saga's order is payment verification, then the data
fetches, then the ledger begin call, then model invocation: no fetch
happens before the verification call or after a begin interaction, and the
model call happens only after a begin interaction. -/
theorem C4_amended_order (env : SagaEnv) (input : String) :
    (((sagaRun env input).events.takeWhile (fun e => !isVerifyEv e)).filter
        isFetch = []) ∧
    (((sagaRun env input).events.dropWhile (fun e => !isBeginEv e)).filter
        isFetch = []) ∧
    (((sagaRun env input).events.takeWhile (fun e => !isBeginEv e)).filter
        isModelCall = []) := by
  have hfetch_nb : ∀ a ∈ fetchEvents env input, (!isBeginEv a) = true := by
    intro a ha
    rcases mem_fetchEvents ha with rfl | rfl <;> rfl
  have hprefix_nb : ∀ a ∈ Event.verifyCall :: fetchEvents env input,
      (!isBeginEv a) = true := by
    intro a ha
    rcases mem_prefix_trace ha with rfl | rfl | rfl <;> rfl
  rcases sagaRun_shape env input with hs | hs | hs | hs | ⟨id2, hb, hs⟩ <;> rw [hs]
  · exact ⟨rfl, rfl, rfl⟩
  · refine ⟨rfl, ?_, rfl⟩
    rfl
  · refine ⟨?_, ?_, ?_⟩
    · rw [List.cons_append, List.takeWhile_cons]
      rfl
    · rw [dropWhile_append_of_all hprefix_nb]
      rfl
    · rw [takeWhile_append_of_all hprefix_nb]
      rw [List.filter_append]
      rw [List.filter_eq_nil_iff.mpr ?side1]
      · rfl
      case side1 =>
        intro a ha
        rcases mem_prefix_trace ha with rfl | rfl | rfl <;> simp [isModelCall]
  · refine ⟨?_, ?_, ?_⟩
    · rw [List.cons_append, List.takeWhile_cons]
      rfl
    · rw [dropWhile_append_of_all hprefix_nb]
      rfl
    · rw [takeWhile_append_of_all hprefix_nb]
      rw [List.filter_append]
      rw [List.filter_eq_nil_iff.mpr ?side2]
      · rfl
      case side2 =>
        intro a ha
        rcases mem_prefix_trace ha with rfl | rfl | rfl <;> simp [isModelCall]
  · refine ⟨?_, ?_, ?_⟩
    · rw [List.cons_append, List.takeWhile_cons]
      rfl
    · rw [dropWhile_append_of_all hprefix_nb]
      rw [List.dropWhile_cons]
      simp only [isBeginEv, Bool.not_true, Bool.false_eq_true, if_false]
      rw [List.filter_cons]
      simp only [isFetch, Bool.false_eq_true, if_false]
      rw [List.filter_eq_nil_iff]
      intro a ha
      simp [fetch_not_mem_postBegin ha]
    · rw [takeWhile_append_of_all hprefix_nb]
      rw [List.takeWhile_cons]
      simp only [isBeginEv, Bool.not_true, Bool.false_eq_true, if_false]
      rw [List.filter_append]
      rw [List.filter_eq_nil_iff.mpr ?side3]
      · rfl
      case side3 =>
        intro a ha
        rcases mem_prefix_trace ha with rfl | rfl | rfl <;> simp [isModelCall]

/-- C5: a successful execution with a successful settle skips the release
call entirely when the agent has no beneficiary (absent lookup, empty or
zero developer address) and still marks the payment settled; and a release
call implies the settle succeeded and no release happens before the settle
call. -/
theorem C5_release_only_after_settle (env : SagaEnv) (input : String) :
    (∀ id, Event.beginCall (some id) ∈ (sagaRun env input).events →
      (effectiveResult env.modelResult).success = true →
      env.settleResult = Except.ok () →
      (env.agentAfterSettle = none ∨
        ∃ a, env.agentAfterSettle = some a ∧
          (a.developer = "" ∨ a.developer = zeroAddress)) →
      Event.releaseCall ∉ (sagaRun env input).events ∧
        Event.updatePayment .settled ∈ (sagaRun env input).events) ∧
    (Event.releaseCall ∈ (sagaRun env input).events →
      env.settleResult = Except.ok () ∧
      ((sagaRun env input).events.takeWhile (fun e => !isSettleEv e)).filter
        isReleaseEv = []) := by
  have hprefix_ns : ∀ a ∈ Event.verifyCall :: fetchEvents env input,
      (!isSettleEv a) = true := by
    intro a ha
    rcases mem_prefix_trace ha with rfl | rfl | rfl <;> rfl
  rcases sagaRun_shape env input with hs | hs | hs | hs | ⟨id2, hb, hs⟩
  · refine ⟨?_, ?_⟩
    · intro id hmem
      rw [hs] at hmem
      exact absurd hmem (List.not_mem_nil _)
    · intro hrel
      rw [hs] at hrel
      exact absurd hrel (List.not_mem_nil _)
  · refine ⟨?_, ?_⟩
    · intro id hmem
      rw [hs] at hmem
      simp at hmem
    · intro hrel
      rw [hs] at hrel
      simp at hrel
  · refine ⟨?_, ?_⟩
    · intro id hmem
      rw [hs] at hmem
      rcases List.mem_append.mp hmem with h | h
      · rcases mem_prefix_trace h with h | h | h <;> cases h
      · simp at h
    · intro hrel
      rw [hs] at hrel
      rcases List.mem_append.mp hrel with h | h
      · rcases mem_prefix_trace h with h | h | h <;> cases h
      · simp at h
  · refine ⟨?_, ?_⟩
    · intro id hmem
      rw [hs] at hmem
      rcases List.mem_append.mp hmem with h | h
      · rcases mem_prefix_trace h with h | h | h <;> cases h
      · simp at h
    · intro hrel
      rw [hs] at hrel
      rcases List.mem_append.mp hrel with h | h
      · rcases mem_prefix_trace h with h | h | h <;> cases h
      · simp at h
  · refine ⟨?_, ?_⟩
    · intro id hmem hsucc hsettle hagent
      constructor
      · intro hrel
        rw [hs] at hrel
        rcases List.mem_append.mp hrel with h | h
        · rcases mem_prefix_trace h with h | h | h <;> cases h
        · rcases List.mem_cons.mp h with h | h
          · cases h
          · rcases mem_postBeginEvents h with h | h | h | h | h | h
            · cases h
            · cases h
            · cases h
            · cases h
            · cases h
            · obtain ⟨_, _, a, ha, hd1, hd2⟩ := releaseCall_mem_settleEvents h
              rcases hagent with hnone | ⟨a2, ha2, hd⟩
              · rw [hnone] at ha
                cases ha
              · rw [ha2] at ha
                injection ha with ha3
                rcases hd with hd | hd
                · exact hd1 (ha3 ▸ hd)
                · exact hd2 (ha3 ▸ hd)
      · have hsettled : Event.updatePayment .settled ∈
            settleEvents env (effectiveResult env.modelResult).success := by
          rw [hsucc]
          exact settled_mem_settleEvents_ok env hsettle
        have hp : Event.updatePayment .settled ∈ postBeginEvents env id2 := by
          unfold postBeginEvents
          simp only [List.mem_append, List.mem_cons]
          tauto
        rw [hs]
        exact List.mem_append.mpr (Or.inr (List.mem_cons.mpr (Or.inr hp)))
    · intro hrel
      have hse : Event.releaseCall ∈
          settleEvents env (effectiveResult env.modelResult).success := by
        rw [hs] at hrel
        rcases List.mem_append.mp hrel with h | h
        · rcases mem_prefix_trace h with h | h | h <;> cases h
        · rcases List.mem_cons.mp h with h | h
          · cases h
          · rcases mem_postBeginEvents h with h | h | h | h | h | h
            · cases h
            · cases h
            · cases h
            · cases h
            · cases h
            · exact h
      obtain ⟨hsucc, hsettle, _⟩ := releaseCall_mem_settleEvents hse
      refine ⟨hsettle, ?_⟩
      rw [hs]
      rw [takeWhile_append_of_all hprefix_ns]
      rw [List.takeWhile_cons]
      simp only [isSettleEv, Bool.not_false, if_true]
      rw [List.filter_append]
      rw [List.filter_eq_nil_iff.mpr ?side4]
      · rw [List.filter_cons]
        simp only [isReleaseEv, Bool.false_eq_true, if_false]
        exact takeWhile_settle_postBegin_no_release env id2
      case side4 =>
        intro a ha
        rcases mem_prefix_trace ha with rfl | rfl | rfl <;> simp [isReleaseEv]

/-- C5 witness: a successful run whose agent has an empty developer address
skips the release and still settles; its trace has no release before the
settle call. -/
theorem C5_witness :
    Event.beginCall (some 9) ∈ (sagaRun envC5w "hi").events ∧
      Event.releaseCall ∉ (sagaRun envC5w "hi").events ∧
      Event.updatePayment .settled ∈ (sagaRun envC5w "hi").events :=
  ⟨by decide,
    ((C5_release_only_after_settle envC5w "hi").1 9 (by decide) rfl rfl
      (Or.inr ⟨⟨100000, ""⟩, rfl, Or.inl rfl⟩)).1,
    ((C5_release_only_after_settle envC5w "hi").1 9 (by decide) rfl rfl
      (Or.inr ⟨⟨100000, ""⟩, rfl, Or.inl rfl⟩)).2⟩

/-- C8: the payment hash is selected by a dual path: an explicit
client-supplied 0x-prefixed value is used unchanged; otherwise the decoded
payload hash (the client-side digest of payer+nonce+value+timestamps) is
used when present, and otherwise the keccak digest of the raw header; the
selection is a pure function of the request, so the same decoded token
always yields the same hash. -/
theorem C8_payment_hash_selection (keccak digest : String → String)
    (body : Option String) (p : PaymentPayload) (hv : String) :
    (∀ h, body = some h → strStartsWith h "0x" = true →
      computePaymentHash keccak body p hv = h) ∧
    ((body = none ∨ ∃ h, body = some h ∧ strStartsWith h "0x" = false) →
      p.hash = some (clientPayloadHash digest p) →
      computePaymentHash keccak body p hv =
        digest (p.payer ++ p.nonce ++ p.value ++ p.validAfter ++ p.validBefore)) ∧
    ((body = none ∨ ∃ h, body = some h ∧ strStartsWith h "0x" = false) →
      p.hash = none →
      computePaymentHash keccak body p hv = keccak hv) ∧
    (∀ body2 p2 hv2, body = body2 → p = p2 → hv = hv2 →
      computePaymentHash keccak body p hv =
        computePaymentHash keccak body2 p2 hv2) := by
  refine ⟨?_, ?_, ?_, ?_⟩
  · intro h hb hstart
    subst hb
    simp [computePaymentHash, hstart]
  · rintro (hb | ⟨h, hb, hstart⟩) hp
    · subst hb
      simp [computePaymentHash, hp, clientPayloadHash]
    · subst hb
      simp [computePaymentHash, hp, hstart, clientPayloadHash]
  · rintro (hb | ⟨h, hb, hstart⟩) hp
    · subst hb
      simp [computePaymentHash, hp]
    · subst hb
      simp [computePaymentHash, hp, hstart]
  · rintro body2 p2 hv2 rfl rfl rfl
    rfl

/-- C8 witness: an explicit 0x-prefixed client hash is used unchanged. -/
theorem C8_witness :
    (some "0xabc" : Option String) = some "0xabc" ∧
      strStartsWith "0xabc" "0x" = true ∧
      computePaymentHash (fun s => "k" ++ s) (some "0xabc")
        ⟨none, "p", "n", "v", "a", "b"⟩ "hdr" = "0xabc" :=
  ⟨rfl, by decide,
    (C8_payment_hash_selection (fun s => "k" ++ s) (fun s => "d" ++ s)
      (some "0xabc") ⟨none, "p", "n", "v", "a", "b"⟩ "hdr").1 "0xabc" rfl
      (by decide)⟩

/-- C10 counterexample: sanitization keeps the carriage return (a control
character that is neither newline nor tab), contradicting the claim that
all control characters other than newline and tab are removed from an
accepted input. -/
theorem C10_counterexample :
    validateAgentInput (some "a\x0db") = true ∧
      '\x0d' ∈ (sanitizeString "a\x0db" 10000).data ∧
      '\x0d'.toNat < 32 ∧ '\x0d' ≠ '\n' ∧ '\x0d' ≠ '\t' := by
  refine ⟨by decide, by decide, by decide, by decide, by decide⟩

/-- C10 amended: requests that are rate-limit-admitted but carry missing,
whitespace-only, oversized, or injection-matching input are rejected with
status 400 and no saga effects; accepted input reaches the saga only after
sanitization, which strips the control-character class (everything below
0x20 except tab, newline and carriage return, plus DEL), truncates to
10000 characters and trims surrounding whitespace. -/
theorem C10_input_gate (env : SagaEnv) (raw : Option String) :
    (validateAgentInput raw = false →
      chatPipeline env false raw = ⟨400, [], none⟩) ∧
    validateAgentInput none = false ∧
    (∀ s, trimChars s.data = [] → validateAgentInput (some s) = false) ∧
    (∀ s, 10000 < s.length → validateAgentInput (some s) = false) ∧
    (∀ s, (hasScriptTag s || hasJavascriptUri s || hasEventHandler s) = true →
      validateAgentInput (some s) = false) ∧
    (∀ s, raw = some s → validateAgentInput raw = true →
      (chatPipeline env false raw).sagaInput = some (sanitizeString s 10000) ∧
      (chatPipeline env false raw).events =
        (sagaRun env (sanitizeString s 10000)).events ∧
      (chatPipeline env false raw).status =
        (sagaRun env (sanitizeString s 10000)).status) ∧
    (∀ s n c, c ∈ (sanitizeString s n).data → isStrippedControl c = false) ∧
    (∀ s n, (sanitizeString s n).length ≤ n) ∧
    (∀ s n c, (sanitizeString s n).data.head? = some c →
      jsWhitespace c = false) ∧
    (∀ s n c, (sanitizeString s n).data.getLast? = some c →
      jsWhitespace c = false) := by
  refine ⟨?_, rfl, ?_, ?_, ?_, ?_, ?_, ?_, ?_, ?_⟩
  · intro h
    simp [chatPipeline, h]
  · intro s h
    simp only [validateAgentInput]
    split_ifs <;> simp_all [List.isEmpty_iff]
  · intro s h
    simp only [validateAgentInput]
    split_ifs <;> simp_all
  · intro s h
    simp only [validateAgentInput]
    split_ifs <;> simp_all
  · intro s hb hv
    subst hb
    refine ⟨?_, ?_, ?_⟩ <;> simp [chatPipeline, hv]
  · intro s n c hc
    have hc2 : c ∈ (s.data.filter (fun c => !isStrippedControl c)).take n :=
      mem_trimChars hc
    have hc3 : c ∈ s.data.filter (fun c => !isStrippedControl c) :=
      (List.take_sublist n _).subset hc2
    have := (List.mem_filter.mp hc3).2
    simpa using this
  · intro s n
    have h1 : (sanitizeString s n).data.length ≤
        ((s.data.filter (fun c => !isStrippedControl c)).take n).length :=
      (trimChars_sublist _).length_le
    have h2 := List.length_take_le n (s.data.filter (fun c => !isStrippedControl c))
    calc (sanitizeString s n).length
        ≤ ((s.data.filter (fun c => !isStrippedControl c)).take n).length := h1
      _ ≤ n := h2
  · intro s n c hc
    exact trimChars_head?_not_ws _ c hc
  · intro s n c hc
    exact trimChars_getLast?_not_ws _ c hc

/-- C10 witness: an input with surrounding spaces and an embedded null byte
is accepted and reaches the saga sanitized. -/
theorem C10_witness :
    (some "  hi\x00 there  " : Option String) = some "  hi\x00 there  " ∧
      validateAgentInput (some "  hi\x00 there  ") = true ∧
      (chatPipeline envC10w false (some "  hi\x00 there  ")).sagaInput =
        some (sanitizeString "  hi\x00 there  " 10000) :=
  ⟨rfl, by decide,
    ((C10_input_gate envC10w (some "  hi\x00 there  ")).2.2.2.2.2.1
      "  hi\x00 there  " rfl (by decide)).1⟩

/-- Attempt 3 (no attempts left): the loop exits with its outcome, making
the third call and sleeping nothing further. -/
theorem chat_go3_spec (env : ChatModelEnv) (b : Bool) (d : List Nat)
    (le : Option ModelError) :
    (chatRetryGo env 3 [] b d le).calls = 3 ∧
      (chatRetryGo env 3 [] b d le).delays = d := by
  rcases hc : env.call 3 b with e | o
  · have hq : quotaSwitchCond env b e 3 = false := by
      simp [quotaSwitchCond]
    by_cases hp : dataPolicyCond b e = true
    · simp [chatRetryGo, hc, hq, hp]
    · by_cases hr : isRetryableErr e = true <;> simp [chatRetryGo, hc, hq, hp, hr]
  · simp [chatRetryGo, hc]

/-- Attempt 2: either the loop exits here after two calls, or attempt 2
failed with a retryable error and one more backoff was slept. -/
theorem chat_go2_spec (env : ChatModelEnv) (b : Bool) (d : List Nat)
    (le : Option ModelError) :
    ((chatRetryGo env 2 [3] b d le).calls = 2 ∧
      (chatRetryGo env 2 [3] b d le).delays = d) ∨
    ((chatRetryGo env 2 [3] b d le).calls = 3 ∧
      (chatRetryGo env 2 [3] b d le).delays = d ++ [retryDelay * 3] ∧
      ∃ e, env.call 2 b = Except.error e ∧ isRetryableErr e = true) := by
  rcases hc : env.call 2 b with e | o
  · have hq : quotaSwitchCond env b e 2 = false := by
      simp [quotaSwitchCond]
    by_cases hp : dataPolicyCond b e = true
    · left
      simp [chatRetryGo, hc, hq, hp]
    · by_cases hr : isRetryableErr e = true
      · right
        have heq : chatRetryGo env 2 [3] b d le =
            chatRetryGo env 3 [] b (d ++ [retryDelay * 3]) (some e) := by
          simp [chatRetryGo, hc, hq, hp, hr]
        have h3 := chat_go3_spec env b (d ++ [retryDelay * 3]) (some e)
        rw [heq]
        exact ⟨h3.1, h3.2, e, rfl, hr⟩
      · left
        simp [chatRetryGo, hc, hq, hp, hr]
  · left
    simp [chatRetryGo, hc]

/-- Attempt 1: either the loop exits here after one call, or attempt 1
failed with a retryable error (the quota failover implies a quota message)
and the loop retried, on some provider, after one backoff. -/
theorem chat_go1_spec (env : ChatModelEnv) (b : Bool) (d : List Nat)
    (le : Option ModelError) :
    ((chatRetryGo env 1 [2, 3] b d le).calls = 1 ∧
      (chatRetryGo env 1 [2, 3] b d le).delays = d) ∨
    (∃ e b2, env.call 1 b = Except.error e ∧ isRetryableErr e = true ∧
      chatRetryGo env 1 [2, 3] b d le =
        chatRetryGo env 2 [3] b2 (d ++ [retryDelay * 2]) (some e)) := by
  rcases hc : env.call 1 b with e | o
  · by_cases hq : quotaSwitchCond env b e 1 = true
    · right
      have hq2 := hq
      simp only [quotaSwitchCond, Bool.and_eq_true] at hq2
      obtain ⟨⟨⟨⟨_, hqm⟩, _⟩, _⟩, _⟩ := hq2
      refine ⟨e, true, rfl, ?_, ?_⟩
      · simp [isRetryableErr, hqm]
      · simp [chatRetryGo, hc, hq]
    · by_cases hp : dataPolicyCond b e = true
      · left
        simp [chatRetryGo, hc, hq, hp]
      · by_cases hr : isRetryableErr e = true
        · right
          exact ⟨e, b, rfl, hr, by simp [chatRetryGo, hc, hq, hp, hr]⟩
        · left
          simp [chatRetryGo, hc, hq, hp, hr]
  · left
    simp [chatRetryGo, hc]

/-- Full loop cases: one, two, or three calls, with the matching backoff
delays and a retryable error behind every non-final attempt. -/
theorem chatLoop_cases (env : ChatModelEnv) (b : Bool) :
    ((chatRetryGo env 1 [2, 3] b [] none).calls = 1 ∧
      (chatRetryGo env 1 [2, 3] b [] none).delays = []) ∨
    ((chatRetryGo env 1 [2, 3] b [] none).calls = 2 ∧
      (chatRetryGo env 1 [2, 3] b [] none).delays = [retryDelay * 2] ∧
      ∃ e, env.call 1 b = Except.error e ∧ isRetryableErr e = true) ∨
    ((chatRetryGo env 1 [2, 3] b [] none).calls = 3 ∧
      (chatRetryGo env 1 [2, 3] b [] none).delays =
        [retryDelay * 2, retryDelay * 3] ∧
      (∃ e, env.call 1 b = Except.error e ∧ isRetryableErr e = true) ∧
      ∃ e b2, env.call 2 b2 = Except.error e ∧ isRetryableErr e = true) := by
  rcases chat_go1_spec env b [] none with ⟨h1, h2⟩ | ⟨e, b2, hc, hr, heq⟩
  · left
    exact ⟨h1, h2⟩
  · rcases chat_go2_spec env b2 [retryDelay * 2] (some e) with ⟨h1, h2⟩ | ⟨h1, h2, e2, hc2, hr2⟩
    · right; left
      rw [heq]
      exact ⟨h1, h2, e, hc, hr⟩
    · right; right
      rw [heq]
      exact ⟨h1, h2, ⟨e, hc, hr⟩, e2, b2, hc2, hr2⟩

/-- The post-loop processing changes neither the call count nor the
delays. -/
theorem runChatLoop_preserves (env : ChatModelEnv) (b : Bool) :
    (runChatLoop env b).calls = (chatRetryGo env 1 [2, 3] b [] none).calls ∧
    (runChatLoop env b).delays = (chatRetryGo env 1 [2, 3] b [] none).delays := by
  unfold runChatLoop
  rcases hst : chatRetryGo env 1 [2, 3] b [] none with ⟨exit, calls, delays⟩
  cases exit with
  | success out le => by_cases hoe : out.isEmpty = true <;> simp [hoe]
  | thrown e => simp
  | policyReturn => simp

/-- Call count, transient evidence and backoff delays of the unified-chat
loop, for either initial provider. -/
theorem chatLoop_counts (env : ChatModelEnv) (b : Bool) :
    (runChatLoop env b).calls ≤ 3 ∧
    (∀ k, 1 ≤ k → k < (runChatLoop env b).calls →
      ∃ e b2, env.call k b2 = Except.error e ∧ isRetryableErr e = true) ∧
    (runChatLoop env b).delays =
      (List.range ((runChatLoop env b).calls - 1)).map
        (fun i => retryDelay * (i + 2)) := by
  have hp := runChatLoop_preserves env b
  rcases chatLoop_cases env b with ⟨h1, h2⟩ | ⟨h1, h2, he⟩ | ⟨h1, h2, he1, he2⟩
  · refine ⟨?_, ?_, ?_⟩
    · simp [hp.1, h1]
    · intro k hk1 hk2
      rw [hp.1, h1] at hk2
      omega
    · simp [hp.1, hp.2, h1, h2, List.range_succ]
  · refine ⟨?_, ?_, ?_⟩
    · simp [hp.1, h1]
    · intro k hk1 hk2
      rw [hp.1, h1] at hk2
      have hk : k = 1 := by omega
      subst hk
      obtain ⟨e, hc, hr⟩ := he
      exact ⟨e, b, hc, hr⟩
    · simp [hp.1, hp.2, h1, h2, List.range_succ]
  · refine ⟨?_, ?_, ?_⟩
    · simp [hp.1, h1]
    · intro k hk1 hk2
      rw [hp.1, h1] at hk2
      interval_cases k
      · obtain ⟨e, hc, hr⟩ := he1
        exact ⟨e, b, hc, hr⟩
      · obtain ⟨e, b2, hc, hr⟩ := he2
        exact ⟨e, b2, hc, hr⟩
    · simp [hp.1, hp.2, h1, h2, List.range_succ]

/-- The unified-chat loop end to end: at most 3 calls, retryable evidence
behind every non-final call, the backoff schedule, immediate abort on a
non-retryable first error, the data-policy early return, and three
straight failures propagating the last error. -/
theorem chatRetry_spec (env : ChatModelEnv) :
    (executeChatWithRetry env).calls ≤ 3 ∧
    (∀ k, 1 ≤ k → k < (executeChatWithRetry env).calls →
      ∃ e b, env.call k b = Except.error e ∧ isRetryableErr e = true) ∧
    (executeChatWithRetry env).delays =
      (List.range ((executeChatWithRetry env).calls - 1)).map
        (fun i => retryDelay * (i + 2)) ∧
    (env.geminiKey = true → ∀ e, env.call 1 false = Except.error e →
      isRetryableErr e = false →
      (executeChatWithRetry env).result = Except.error e ∧
        (executeChatWithRetry env).calls = 1) ∧
    (env.geminiKey = false → env.openRouterKey = true →
      ∀ e, env.call 1 true = Except.error e →
      strContains e.message "data policy" = true →
      strContains e.message "Free model publication" = true →
      (executeChatWithRetry env).result = Except.ok (dataPolicyMessage, false) ∧
        (executeChatWithRetry env).calls = 1) ∧
    (env.geminiKey = true → env.openRouterKey = false →
      ∀ e1 e2 e3, env.call 1 false = Except.error e1 →
      env.call 2 false = Except.error e2 → env.call 3 false = Except.error e3 →
      isRetryableErr e1 = true → isRetryableErr e2 = true →
      (executeChatWithRetry env).result = Except.error e3 ∧
        (executeChatWithRetry env).calls = 3) := by
  by_cases hg : env.geminiKey = true
  · have hE : executeChatWithRetry env = runChatLoop env false := by
      simp [executeChatWithRetry, hg]
    have hcounts := chatLoop_counts env false
    refine ⟨?_, ?_, ?_, ?_, ?_, ?_⟩
    · rw [hE]
      exact hcounts.1
    · rw [hE]
      exact hcounts.2.1
    · rw [hE]
      exact hcounts.2.2
    · intro _ e hc hr
      have hqm : strContains e.message "quota" = false := by
        cases hcq : strContains e.message "quota"
        · rfl
        · exfalso
          have hretr : isRetryableErr e = true := by simp [isRetryableErr, hcq]
          rw [hretr] at hr
          cases hr
      have hq : quotaSwitchCond env false e 1 = false := by
        simp [quotaSwitchCond, hqm]
      have hpol : dataPolicyCond false e = false := by
        simp [dataPolicyCond]
      have hEq : chatRetryGo env 1 [2, 3] false [] none = ⟨.thrown e, 1, []⟩ := by
        simp [chatRetryGo, hc, hq, hpol, hr]
      rw [hE]
      exact ⟨by simp [runChatLoop, hEq], by simp [runChatLoop, hEq]⟩
    · intro hgf
      rw [hgf] at hg
      simp at hg
    · intro _ hok e1 e2 e3 hc1 hc2 hc3 hr1 hr2
      have hq1 : quotaSwitchCond env false e1 1 = false := by
        simp [quotaSwitchCond, hok]
      have hq2 : quotaSwitchCond env false e2 2 = false := by
        simp [quotaSwitchCond]
      have hq3 : quotaSwitchCond env false e3 3 = false := by
        simp [quotaSwitchCond]
      have hp1 : dataPolicyCond false e1 = false := by simp [dataPolicyCond]
      have hp2 : dataPolicyCond false e2 = false := by simp [dataPolicyCond]
      have hp3 : dataPolicyCond false e3 = false := by simp [dataPolicyCond]
      have hEq : chatRetryGo env 1 [2, 3] false [] none =
          ⟨.thrown e3, 3, [retryDelay * 2, retryDelay * 3]⟩ := by
        simp [chatRetryGo, hc1, hc2, hc3, hq1, hq2, hq3, hp1, hp2, hp3, hr1, hr2]
      rw [hE]
      exact ⟨by simp [runChatLoop, hEq], by simp [runChatLoop, hEq]⟩
  · have hgf : env.geminiKey = false := Bool.eq_false_iff.mpr hg
    by_cases ho : env.openRouterKey = true
    · have hE : executeChatWithRetry env = runChatLoop env true := by
        simp [executeChatWithRetry, hgf, ho]
      have hcounts := chatLoop_counts env true
      refine ⟨?_, ?_, ?_, ?_, ?_, ?_⟩
      · rw [hE]
        exact hcounts.1
      · rw [hE]
        exact hcounts.2.1
      · rw [hE]
        exact hcounts.2.2
      · intro hgt
        rw [hgt] at hgf
        simp at hgf
      · intro _ _ e hc hd1 hd2
        have hq : quotaSwitchCond env true e 1 = false := by
          simp [quotaSwitchCond]
        have hpol : dataPolicyCond true e = true := by
          simp [dataPolicyCond, hd1, hd2]
        have hEq : chatRetryGo env 1 [2, 3] true [] none =
            ⟨.policyReturn, 1, []⟩ := by
          simp [chatRetryGo, hc, hq, hpol]
        rw [hE]
        exact ⟨by simp [runChatLoop, hEq], by simp [runChatLoop, hEq]⟩
      · intro hgt
        rw [hgt] at hgf
        simp at hgf
    · have hof : env.openRouterKey = false := Bool.eq_false_iff.mpr ho
      have hE : executeChatWithRetry env = ⟨.ok (noProviderMessage, false), 0, []⟩ := by
        simp [executeChatWithRetry, hgf, hof]
      refine ⟨?_, ?_, ?_, ?_, ?_, ?_⟩
      · rw [hE]
        decide
      · intro k hk1 hk2
        rw [hE] at hk2
        have : k < 0 := hk2
        omega
      · rw [hE]
        decide
      · intro hgt
        rw [hgt] at hgf
        simp at hgf
      · intro _ hot
        rw [hot] at hof
        simp at hof
      · intro hgt
        rw [hgt] at hgf
        simp at hgf

/-- C7 counterexample: in the unified-chat loop, a first attempt failing
with the message "boom" - which contains none of the six message
substrings the claim names as the transient signals - but an error code of
503 is retried: a backoff is slept and a second call is made, refuting
"retried only when the message contains 503, 429, 500, overloaded, quota
or rate limit". -/
theorem C7_counterexample :
    envC7cx.call 1 false = Except.error ⟨"boom", some 503, none⟩ ∧
      isRetryableMsg "boom" = false ∧
      (executeChatWithRetry envC7cx).calls = 2 ∧
      (executeChatWithRetry envC7cx).delays = [retryDelay * 2] :=
  ⟨rfl, by decide, by decide, by decide⟩

/-- C7 amended: both retry loops make at most 3 attempts with backoff
delays of the base delay times the attempt number, retry only on a
transient signal, and propagate the last error after three failures.  The
executor loop classifies transience by message substring alone (503, 429,
500, overloaded, quota, rate limit) and aborts immediately on anything
else; the unified-chat loop additionally treats an error code or status of
503 or 429 as transient, and an OpenRouter data-policy error instead
aborts immediately with a fixed non-success result. -/
theorem C7_retry_policy_amended (call : Nat → Except String String)
    (env : ChatModelEnv) :
    ((executeWithRetry call).calls ≤ 3 ∧
      (∀ k, 1 ≤ k → k < (executeWithRetry call).calls →
        ∃ e, call k = .error e ∧ isRetryableMsg e = true) ∧
      (executeWithRetry call).delays =
        (List.range ((executeWithRetry call).calls - 1)).map
          (fun i => retryDelay * (i + 2)) ∧
      (∀ e, call 1 = .error e → isRetryableMsg e = false →
        (executeWithRetry call).result = .error e ∧
          (executeWithRetry call).calls = 1) ∧
      (∀ e1 e2 e3, call 1 = .error e1 → call 2 = .error e2 →
        call 3 = .error e3 → isRetryableMsg e1 = true →
        isRetryableMsg e2 = true →
        (executeWithRetry call).result = .error e3 ∧
          (executeWithRetry call).calls = 3)) ∧
    ((executeChatWithRetry env).calls ≤ 3 ∧
      (∀ k, 1 ≤ k → k < (executeChatWithRetry env).calls →
        ∃ e b, env.call k b = Except.error e ∧ isRetryableErr e = true) ∧
      (executeChatWithRetry env).delays =
        (List.range ((executeChatWithRetry env).calls - 1)).map
          (fun i => retryDelay * (i + 2)) ∧
      (env.geminiKey = true → ∀ e, env.call 1 false = Except.error e →
        isRetryableErr e = false →
        (executeChatWithRetry env).result = Except.error e ∧
          (executeChatWithRetry env).calls = 1) ∧
      (env.geminiKey = false → env.openRouterKey = true →
        ∀ e, env.call 1 true = Except.error e →
        strContains e.message "data policy" = true →
        strContains e.message "Free model publication" = true →
        (executeChatWithRetry env).result =
            Except.ok (dataPolicyMessage, false) ∧
          (executeChatWithRetry env).calls = 1) ∧
      (env.geminiKey = true → env.openRouterKey = false →
        ∀ e1 e2 e3, env.call 1 false = Except.error e1 →
        env.call 2 false = Except.error e2 →
        env.call 3 false = Except.error e3 →
        isRetryableErr e1 = true → isRetryableErr e2 = true →
        (executeChatWithRetry env).result = Except.error e3 ∧
          (executeChatWithRetry env).calls = 3)) :=
  ⟨executorRetry_spec call, chatRetry_spec env⟩

/-- C7 amended witness: three straight transient failures exhaust both
loops after exactly three calls and propagate the last error. -/
theorem C7_amended_witness :
    ((executeWithRetry callC7w).result = Except.error "e3 500" ∧
      (executeWithRetry callC7w).calls = 3) ∧
    ((executeChatWithRetry envC7w).result =
        Except.error ⟨"e3 500", none, none⟩ ∧
      (executeChatWithRetry envC7w).calls = 3) :=
  ⟨(C7_retry_policy_amended callC7w envC7w).1.2.2.2.2 "e1 503" "e2 429"
      "e3 500" rfl rfl rfl (by decide) (by decide),
    (C7_retry_policy_amended callC7w envC7w).2.2.2.2.2.2 rfl rfl
      ⟨"e1 503", none, none⟩ ⟨"e2 429", none, none⟩ ⟨"e3 500", none, none⟩
      rfl rfl rfl (by decide) (by decide)⟩

end AgentMarket
